import Mathlib

/-!
# Push-Up-Count: the repetition-detection callback

A shallow embedding of the two variants of the push-up counter:

* `src/src/App.js` (component `App`): namespace `App`;
* `src/app.js` (component `PushUpCounter`): namespace `PushUpCounter`.

Both run the same state machine once per pose sample, inside a `setInterval`
callback.  The embedding starts where the callback has received the result of
`estimatePoses` (the list `poses`) and follows the callback line by line.

Numbers.  JavaScript numbers are modelled by an arbitrary linearly ordered
field `K` (so the definitions run on `ℚ` and the theorems hold on `ℝ`); the
rep counter is a natural number.  `Math.atan2` and `Math.PI` are not code of
the repository: they are taken as a parameter `JSMath K`, and `realMath` is
their real-number meaning.  Rounding, `NaN` and signed zeros are outside the
model.

Drawing on the canvas has no effect on the state and is left out.  The
utterances handed to `speechSynthesis.speak` are kept as the list of events a
step returns.
-/

/-- A keypoint of a pose as returned by the detector: `{x, y, score, name}`. -/
structure Keypoint (K : Type) where
  x : K
  y : K
  score : K
  name : String

/-- One element of the array returned by `estimatePoses`. -/
structure Pose (K : Type) where
  keypoints : List (Keypoint K)

/-- The two members of the JavaScript `Math` object the code uses:
`Math.atan2 y x` and `Math.PI`. -/
structure JSMath (K : Type) where
  atan2 : K → K → K
  PI : K

/-- The real-number meaning of `Math.atan2` and `Math.PI`: `atan2 y x` is the
argument of `x + y i` in `(-π, π]`, and `0` at the origin. -/
noncomputable def realMath : JSMath ℝ where
  atan2 := fun y x => Complex.arg ⟨x, y⟩
  PI := Real.pi

namespace App

/-- The state the detection callback of `src/src/App.js` reads and writes:
`lastStageRef.current`, `counter`, `status` and `progress`. -/
structure State (K : Type) where
  lastStage : String
  counter : Nat
  status : String
  progress : K

variable {K : Type} [LinearOrderedField K]

/-- Initial values: `useRef("up")`, `useState(0)`, `useState("Idle")`,
`useState(0)` (App.js lines 10-16). -/
def init : State K :=
  { lastStage := "up", counter := 0, status := "Idle", progress := 0 }

/-- Function `getAngle` of App.js, lines 58-64. -/
def getAngle (M : JSMath K) (p1 p2 p3 : Keypoint K) : K :=
  let angle :=
    (M.atan2 (p3.y - p2.y) (p3.x - p2.x) -
      M.atan2 (p1.y - p2.y) (p1.x - p2.x)) *
    (180 / M.PI)
  |angle|

/-- The interval callback of App.js from line 99 on: `poses` is the result of
`estimatePoses`.  Returns the new state and the utterances spoken. -/
def tick (M : JSMath K) (st : State K) (poses : List (Pose K)) :
    State K × List String :=
  match poses with
  | [] => (st, [])
  | pose :: _ =>
    let keypoints := pose.keypoints
    match keypoints[6]?, keypoints[8]?, keypoints[10]? with
    | some shoulder, some elbow, some wrist =>
      let angle := getAngle M shoulder elbow wrist
      let pct := ((160 - angle) / (160 - 90)) * 100
      let pct := min 100 (max 0 pct)
      let st := { st with progress := pct }
      if angle < 90 then
        let st := { st with status := "Down" }
        if st.lastStage = "up" then
          ({ st with lastStage := "down" }, ["Down"])
        else (st, [])
      else if angle > 160 then
        let st := { st with status := "Up" }
        if st.lastStage = "down" then
          ({ st with counter := st.counter + 1, lastStage := "up" }, ["Up"])
        else (st, [])
      else (st, [])
    | _, _, _ => (st, [])

/-- The effect on `[counter]` of App.js, lines 159-164: what is spoken when a
render sees the counter go from `before` to `after`. -/
def counterEffect (before after : Nat) : List String :=
  if after ≠ before then
    if after > 0 then [toString after] else []
  else []

/-- The angle of a sample, when it has one: the first pose exists and holds
the three landmarks. -/
def sampleAngle (M : JSMath K) (poses : List (Pose K)) : Option K :=
  match poses with
  | [] => none
  | pose :: _ =>
    match pose.keypoints[6]?, pose.keypoints[8]?, pose.keypoints[10]? with
    | some shoulder, some elbow, some wrist => some (getAngle M shoulder elbow wrist)
    | _, _, _ => none

/-- The state after a finite sequence of samples. -/
def run (M : JSMath K) (st : State K) (samples : List (List (Pose K))) : State K :=
  samples.foldl (fun s poses => (tick M s poses).1) st

end App

namespace PushUpCounter

/-- The state the detection callback of `src/app.js` reads and writes:
`lastStageRef.current`, `counter` and `status`. -/
structure State where
  lastStage : String
  counter : Nat
  status : String

variable {K : Type} [LinearOrderedField K]

/-- Initial values: `useRef("up")`, `useState(0)`, `useState("")`
(app.js lines 10-13). -/
def init : State :=
  { lastStage := "up", counter := 0, status := "" }

/-- Function `getAngle` of app.js, lines 35-40. -/
def getAngle (M : JSMath K) (a b c : Keypoint K) : K :=
  let radians := M.atan2 (c.y - b.y) (c.x - b.x) - M.atan2 (a.y - b.y) (a.x - b.x)
  let angle := |(radians * 180) / M.PI|
  if angle > 180 then 360 - angle else angle

/-- The interval callback of app.js, lines 45-70: `poses` is the result of
`estimatePoses`. -/
def tick (M : JSMath K) (st : State) (poses : List (Pose K)) : State :=
  match poses with
  | [] => st
  | pose :: _ =>
    let keypoints := pose.keypoints
    match keypoints.find? (fun p => p.name == "right_shoulder"),
          keypoints.find? (fun p => p.name == "right_elbow"),
          keypoints.find? (fun p => p.name == "right_wrist") with
    | some shoulder, some elbow, some wrist =>
      let angle := getAngle M shoulder elbow wrist
      if angle < 90 then
        let st := { st with status := "Down" }
        if st.lastStage = "up" then { st with lastStage := "down" } else st
      else if angle > 160 then
        let st := { st with status := "Up" }
        if st.lastStage = "down" then
          { st with counter := st.counter + 1, lastStage := "up" }
        else st
      else st
    | _, _, _ => st

/-- The angle of a sample, when it has one: the first pose exists and holds
the three named landmarks. -/
def sampleAngle (M : JSMath K) (poses : List (Pose K)) : Option K :=
  match poses with
  | [] => none
  | pose :: _ =>
    match pose.keypoints.find? (fun p => p.name == "right_shoulder"),
          pose.keypoints.find? (fun p => p.name == "right_elbow"),
          pose.keypoints.find? (fun p => p.name == "right_wrist") with
    | some shoulder, some elbow, some wrist => some (getAngle M shoulder elbow wrist)
    | _, _, _ => none

/-- The state after a finite sequence of samples. -/
def run (M : JSMath K) (st : State) (samples : List (List (Pose K))) : State :=
  samples.foldl (fun s poses => tick M s poses) st

end PushUpCounter

/-! ## Samples used to exercise the callbacks -/

section Samples

variable {K : Type} [LinearOrderedField K]

/-- A keypoint object with the given name, position and score. -/
def landmark (name : String) (x y score : K) : Keypoint K :=
  { x := x, y := y, score := score, name := name }

/-- A pose in the layout MoveNet returns (17 keypoints, the right shoulder,
elbow and wrist at indices 6, 8 and 10), with the right arm at the given
positions, every other keypoint at the origin, and one score for all. -/
def armPose (shoulder elbow wrist : K × K) (score : K) : Pose K :=
  { keypoints :=
      [ landmark "nose" 0 0 score,
        landmark "left_eye" 0 0 score,
        landmark "right_eye" 0 0 score,
        landmark "left_ear" 0 0 score,
        landmark "right_ear" 0 0 score,
        landmark "left_shoulder" 0 0 score,
        landmark "right_shoulder" shoulder.1 shoulder.2 score,
        landmark "left_elbow" 0 0 score,
        landmark "right_elbow" elbow.1 elbow.2 score,
        landmark "left_wrist" 0 0 score,
        landmark "right_wrist" wrist.1 wrist.2 score,
        landmark "left_hip" 0 0 score,
        landmark "right_hip" 0 0 score,
        landmark "left_knee" 0 0 score,
        landmark "right_knee" 0 0 score,
        landmark "left_ankle" 0 0 score,
        landmark "right_ankle" 0 0 score ] }

/-- The pose `armPose` with the right wrist keypoint left out of the array. -/
def noWristPose (shoulder elbow : K × K) (score : K) : Pose K :=
  { keypoints :=
      [ landmark "nose" 0 0 score,
        landmark "left_eye" 0 0 score,
        landmark "right_eye" 0 0 score,
        landmark "left_ear" 0 0 score,
        landmark "right_ear" 0 0 score,
        landmark "left_shoulder" 0 0 score,
        landmark "right_shoulder" shoulder.1 shoulder.2 score,
        landmark "left_elbow" 0 0 score,
        landmark "right_elbow" elbow.1 elbow.2 score,
        landmark "left_wrist" 0 0 score ] }

/-- Replace the score of every keypoint of every pose by `f` of it. -/
def mapScores (f : K → K) (poses : List (Pose K)) : List (Pose K) :=
  poses.map fun pose =>
    { keypoints := pose.keypoints.map fun p => { p with score := f p.score } }

end Samples

/-- A one-pose sample whose right arm makes the angle `θ` degrees at the
elbow (elbow at the origin, wrist at `(1, 0)`, shoulder on the unit circle),
every keypoint carrying the given score. -/
noncomputable def armAtScored (θ score : ℝ) : List (Pose ℝ) :=
  [armPose (Real.cos (θ * Real.pi / 180), Real.sin (θ * Real.pi / 180)) (0, 0) (1, 0) score]

/-- The sample `armAtScored θ 1`: all keypoints detected with full confidence. -/
noncomputable def armAt (θ : ℝ) : List (Pose ℝ) :=
  armAtScored θ 1

/-- A one-pose sample in pixel coordinates with the right arm bent at a right
angle: shoulder at (100, 200), elbow at (200, 200), wrist at (200, 100). -/
def bentArm {K : Type} [LinearOrderedField K] : List (Pose K) :=
  [armPose (100, 200) (200, 200) (200, 100) 1]

/-- A one-pose sample whose right shoulder and right elbow are detected at
the same pixel (200, 200), the wrist at (100, 200). -/
def elbowOnShoulder {K : Type} [LinearOrderedField K] : List (Pose K) :=
  [armPose (200, 200) (200, 200) (100, 200) 1]

/-- A state of App.js in the "down" phase with no repetition counted yet. -/
def App.downState {K : Type} [LinearOrderedField K] : App.State K :=
  { lastStage := "down", counter := 0, status := "Down", progress := 100 }

/-- A state of app.js in the "down" phase with no repetition counted yet. -/
def PushUpCounter.downState : PushUpCounter.State :=
  { lastStage := "down", counter := 0, status := "Down" }

/-! ## Auxiliary notions used in the statements -/

namespace App

variable {K : Type} [LinearOrderedField K]

/-- Lines 120-141 of App.js with `angle` already computed: the progress update
and the two-threshold state machine. -/
def onAngle (st : State K) (angle : K) : State K × List String :=
  let pct := ((160 - angle) / (160 - 90)) * 100
  let pct := min 100 (max 0 pct)
  let st := { st with progress := pct }
  if angle < 90 then
    let st := { st with status := "Down" }
    if st.lastStage = "up" then
      ({ st with lastStage := "down" }, ["Down"])
    else (st, [])
  else if angle > 160 then
    let st := { st with status := "Up" }
    if st.lastStage = "down" then
      ({ st with counter := st.counter + 1, lastStage := "up" }, ["Up"])
    else (st, [])
  else (st, [])

/-- The sample completes a repetition: it has an angle, the angle is above
160 and the last stage is "down". -/
def completesRep (M : JSMath K) (st : State K) (poses : List (Pose K)) : Prop :=
  (∃ a, sampleAngle M poses = some a ∧ 160 < a) ∧ st.lastStage = "down"

/-- The sample is skipped: no pose was detected, or the first pose lacks the
shoulder (index 6), the elbow (index 8) or the wrist (index 10). -/
def skipped (poses : List (Pose K)) : Prop :=
  poses = [] ∨
    ∃ pose rest, poses = pose :: rest ∧
      (pose.keypoints[6]? = none ∨ pose.keypoints[8]? = none ∨ pose.keypoints[10]? = none)

/-- The three landmarks the callback of App.js reads from a sample, when all
are present: `keypoints[6]`, `keypoints[8]`, `keypoints[10]` of the first pose. -/
def landmarks (poses : List (Pose K)) : Option (Keypoint K × Keypoint K × Keypoint K) :=
  match poses with
  | [] => none
  | pose :: _ =>
    match pose.keypoints[6]?, pose.keypoints[8]?, pose.keypoints[10]? with
    | some shoulder, some elbow, some wrist => some (shoulder, elbow, wrist)
    | _, _, _ => none

/-- The invariant tying the displayed status to the internal stage. -/
def Agree (st : State K) : Prop :=
  (st.status = "Idle" ∧ st.lastStage = "up") ∨
  (st.status = "Up" ∧ st.lastStage = "up") ∨
  (st.status = "Down" ∧ st.lastStage = "down")

end App

namespace PushUpCounter

variable {K : Type} [LinearOrderedField K]

/-- Lines 56-67 of app.js with `angle` already computed. -/
def onAngle (st : State) (angle : K) : State :=
  if angle < 90 then
    let st := { st with status := "Down" }
    if st.lastStage = "up" then { st with lastStage := "down" } else st
  else if angle > 160 then
    let st := { st with status := "Up" }
    if st.lastStage = "down" then
      { st with counter := st.counter + 1, lastStage := "up" }
    else st
  else st

/-- The sample completes a repetition: it has an angle, the angle is above
160 and the last stage is "down". -/
def completesRep (M : JSMath K) (st : State) (poses : List (Pose K)) : Prop :=
  (∃ a, sampleAngle M poses = some a ∧ 160 < a) ∧ st.lastStage = "down"

/-- The sample is skipped: no pose was detected, or the first pose has no
keypoint named right_shoulder, right_elbow or right_wrist. -/
def skipped (poses : List (Pose K)) : Prop :=
  poses = [] ∨
    ∃ pose rest, poses = pose :: rest ∧
      (pose.keypoints.find? (fun p => p.name == "right_shoulder") = none ∨
       pose.keypoints.find? (fun p => p.name == "right_elbow") = none ∨
       pose.keypoints.find? (fun p => p.name == "right_wrist") = none)

/-- The three landmarks the callback of app.js reads from a sample, when all
are present: the first keypoints of the first pose named right_shoulder,
right_elbow and right_wrist. -/
def landmarks (poses : List (Pose K)) : Option (Keypoint K × Keypoint K × Keypoint K) :=
  match poses with
  | [] => none
  | pose :: _ =>
    match pose.keypoints.find? (fun p => p.name == "right_shoulder"),
          pose.keypoints.find? (fun p => p.name == "right_elbow"),
          pose.keypoints.find? (fun p => p.name == "right_wrist") with
    | some shoulder, some elbow, some wrist => some (shoulder, elbow, wrist)
    | _, _, _ => none

/-- The invariant tying the displayed status to the internal stage. -/
def Agree (st : State) : Prop :=
  (st.status = "" ∧ st.lastStage = "up") ∨
  (st.status = "Up" ∧ st.lastStage = "up") ∨
  (st.status = "Down" ∧ st.lastStage = "down")

end PushUpCounter

section Spec

variable {K : Type} [LinearOrderedField K]

/-- Two keypoints lie at the same position. -/
def coincide (p q : Keypoint K) : Prop :=
  p.x = q.x ∧ p.y = q.y

/-- The geometry of three landmarks is degenerate: the elbow lies on the
shoulder or on the wrist. -/
def degenerate (shoulder elbow wrist : Keypoint K) : Prop :=
  coincide elbow shoulder ∨ coincide elbow wrist

/-- One of the three landmarks has a score below the spec's floor 0.5. -/
def lowConfidence (shoulder elbow wrist : Keypoint K) : Prop :=
  shoulder.score < 1 / 2 ∨ elbow.score < 1 / 2 ∨ wrist.score < 1 / 2

/-- The samples of `k` full cycles: `k` times the pair (down sample, up sample). -/
def cycles (down up : List (Pose K)) : Nat → List (List (Pose K))
  | 0 => []
  | k + 1 => down :: up :: cycles down up k

/-- The spec's `clamp(v, lo, hi)`. -/
def clamp (v lo hi : K) : K :=
  if v < lo then lo else if hi < v then hi else v

/-- The spec's progress formula:
`clamp(((UP_THRESHOLD − angle) / (UP_THRESHOLD − DOWN_THRESHOLD)) * 100, 0, 100)`
with the thresholds 160 and 90. -/
def progressSpec (angle : K) : K :=
  clamp (((160 - angle) / (160 - 90)) * 100) 0 100

end Spec

/-! ## Lemmas -/
theorem realMath_atan2_unit (r : ℝ) (h1 : -Real.pi < r) (h2 : r ≤ Real.pi) :
    realMath.atan2 (Real.sin r) (Real.cos r) = r := by
  have h := @Complex.arg_cos_add_sin_mul_I r ⟨h1, h2⟩
  have e : (⟨Real.cos r, Real.sin r⟩ : ℂ) = Complex.cos r + Complex.sin r * Complex.I := by
    apply Complex.ext <;> simp [Complex.cos_ofReal_re, Complex.sin_ofReal_re, Complex.cos_ofReal_im, Complex.sin_ofReal_im]
  show Complex.arg ⟨Real.cos r, Real.sin r⟩ = r
  rw [e]; exact h

theorem realMath_atan2_pos_x : realMath.atan2 0 1 = 0 := by
  show Complex.arg ⟨1, 0⟩ = 0
  have e : (⟨1, 0⟩ : ℂ) = 1 := by apply Complex.ext <;> simp
  rw [e, Complex.arg_one]

theorem armAt_radians (θ : ℝ) (h0 : 0 ≤ θ) (h1 : θ ≤ 180) :
    -Real.pi < θ * Real.pi / 180 ∧ θ * Real.pi / 180 ≤ Real.pi := by
  have hpi := Real.pi_pos
  constructor
  · have : 0 ≤ θ * Real.pi / 180 := by positivity
    linarith
  · rw [div_le_iff₀ (by norm_num)]; nlinarith

theorem App.sampleAngle_armAtScored (θ s : ℝ) (h0 : 0 ≤ θ) (h1 : θ ≤ 180) :
    App.sampleAngle realMath (armAtScored θ s) = some θ := by
  have hpi := Real.pi_pos
  obtain ⟨hr1, hr2⟩ := armAt_radians θ h0 h1
  simp only [App.sampleAngle, armAtScored, armPose, landmark, App.getAngle]
  simp only [List.getElem?_cons_succ, List.getElem?_cons_zero, sub_zero]
  rw [realMath_atan2_unit _ hr1 hr2, realMath_atan2_pos_x]
  congr 1
  show |(0 - θ * Real.pi / 180) * (180 / Real.pi)| = θ
  have : (0 - θ * Real.pi / 180) * (180 / Real.pi) = -θ := by
    field_simp; ring
  rw [this, abs_neg, abs_of_nonneg h0]

theorem PushUpCounter.sampleAngle_armAtScored_puc (θ s : ℝ) (h0 : 0 ≤ θ) (h1 : θ ≤ 180) :
    PushUpCounter.sampleAngle realMath (armAtScored θ s) = some θ := by
  have hpi := Real.pi_pos
  obtain ⟨hr1, hr2⟩ := armAt_radians θ h0 h1
  simp [PushUpCounter.sampleAngle, armAtScored, armPose, landmark, PushUpCounter.getAngle,
    List.find?, realMath_atan2_unit _ hr1 hr2, realMath_atan2_pos_x]
  have e2 : -(θ * Real.pi) / realMath.PI = -θ := by
    show -(θ * Real.pi) / Real.pi = -θ
    field_simp
  rw [e2, abs_neg, abs_of_nonneg h0, if_neg (not_lt.2 h1)]

section Bridge

variable {K : Type} [LinearOrderedField K]

theorem App.tick_eq (M : JSMath K) (st : App.State K) (poses : List (Pose K)) :
    App.tick M st poses =
      match App.sampleAngle M poses with
      | some a => App.onAngle st a
      | none => (st, []) := by
  cases poses with
  | nil => rfl
  | cons pose rest =>
    rcases h6 : pose.keypoints[6]? with _ | sh <;>
    rcases h8 : pose.keypoints[8]? with _ | el <;>
    rcases h10 : pose.keypoints[10]? with _ | wr <;>
    simp [App.tick, App.sampleAngle, App.onAngle, h6, h8, h10]

theorem App.tick_of_angle (M : JSMath K) (st : App.State K) (poses : List (Pose K)) (a : K)
    (h : App.sampleAngle M poses = some a) : App.tick M st poses = App.onAngle st a := by
  rw [App.tick_eq, h]

theorem App.tick_of_none (M : JSMath K) (st : App.State K) (poses : List (Pose K))
    (h : App.sampleAngle M poses = none) : App.tick M st poses = (st, []) := by
  rw [App.tick_eq, h]

theorem PushUpCounter.tick_eq_puc (M : JSMath K) (st : PushUpCounter.State) (poses : List (Pose K)) :
    PushUpCounter.tick M st poses =
      match PushUpCounter.sampleAngle M poses with
      | some a => PushUpCounter.onAngle st a
      | none => st := by
  cases poses with
  | nil => rfl
  | cons pose rest =>
    rcases h6 : pose.keypoints.find? (fun p => p.name == "right_shoulder") with _ | sh <;>
    rcases h8 : pose.keypoints.find? (fun p => p.name == "right_elbow") with _ | el <;>
    rcases h10 : pose.keypoints.find? (fun p => p.name == "right_wrist") with _ | wr <;>
    simp [PushUpCounter.tick, PushUpCounter.sampleAngle, PushUpCounter.onAngle, h6, h8, h10]

theorem PushUpCounter.tick_of_angle_puc (M : JSMath K) (st : PushUpCounter.State)
    (poses : List (Pose K)) (a : K)
    (h : PushUpCounter.sampleAngle M poses = some a) :
    PushUpCounter.tick M st poses = PushUpCounter.onAngle st a := by
  rw [PushUpCounter.tick_eq_puc, h]

theorem PushUpCounter.tick_of_none_puc (M : JSMath K) (st : PushUpCounter.State)
    (poses : List (Pose K))
    (h : PushUpCounter.sampleAngle M poses = none) : PushUpCounter.tick M st poses = st := by
  rw [PushUpCounter.tick_eq_puc, h]

theorem App.sampleAngle_of_skipped (M : JSMath K) (poses : List (Pose K))
    (h : App.skipped poses) : App.sampleAngle M poses = none := by
  rcases h with rfl | ⟨pose, rest, rfl, h⟩
  · rfl
  · simp only [App.sampleAngle]
    split
    · next h6 h8 h10 => rw [h6, h8, h10] at h; simp at h
    · rfl

theorem PushUpCounter.sampleAngle_of_skipped_puc (M : JSMath K) (poses : List (Pose K))
    (h : PushUpCounter.skipped poses) : PushUpCounter.sampleAngle M poses = none := by
  rcases h with rfl | ⟨pose, rest, rfl, h⟩
  · rfl
  · simp only [PushUpCounter.sampleAngle]
    split
    · next h6 h8 h10 => rw [h6, h8, h10] at h; simp at h
    · rfl

end Bridge

section Machine

variable {K : Type} [LinearOrderedField K]

theorem not_up_of_lt_down {a : K} (h : a < 90) : ¬ (160 < a) := by
  intro h2
  have : (90 : K) < 160 := by norm_num
  exact absurd (lt_trans h2 h) (not_lt.2 (le_of_lt this))

theorem App.onAngle_down (st : App.State K) (a : K) (h : a < 90) :
    App.onAngle st a =
      if st.lastStage = "up" then
        ({ lastStage := "down", counter := st.counter, status := "Down",
           progress := min 100 (max 0 (((160 - a) / (160 - 90)) * 100)) }, ["Down"])
      else
        ({ lastStage := st.lastStage, counter := st.counter, status := "Down",
           progress := min 100 (max 0 (((160 - a) / (160 - 90)) * 100)) }, []) := by
  simp only [App.onAngle, if_pos h]

theorem App.onAngle_up (st : App.State K) (a : K) (h : 160 < a) :
    App.onAngle st a =
      if st.lastStage = "down" then
        ({ lastStage := "up", counter := st.counter + 1, status := "Up",
           progress := min 100 (max 0 (((160 - a) / (160 - 90)) * 100)) }, ["Up"])
      else
        ({ lastStage := st.lastStage, counter := st.counter, status := "Up",
           progress := min 100 (max 0 (((160 - a) / (160 - 90)) * 100)) }, []) := by
  have h' : ¬ a < 90 := fun h2 => not_up_of_lt_down h2 h
  simp only [App.onAngle, if_neg h', gt_iff_lt, if_pos h]

theorem App.onAngle_band (st : App.State K) (a : K) (h1 : 90 ≤ a) (h2 : a ≤ 160) :
    App.onAngle st a =
      ({ lastStage := st.lastStage, counter := st.counter, status := st.status,
         progress := min 100 (max 0 (((160 - a) / (160 - 90)) * 100)) }, []) := by
  simp only [App.onAngle, if_neg (not_lt.2 h1), gt_iff_lt, if_neg (not_lt.2 h2)]

theorem PushUpCounter.onAngle_down_puc (st : PushUpCounter.State) (a : K) (h : a < 90) :
    PushUpCounter.onAngle st a =
      if st.lastStage = "up" then
        { lastStage := "down", counter := st.counter, status := "Down" }
      else
        { lastStage := st.lastStage, counter := st.counter, status := "Down" } := by
  simp only [PushUpCounter.onAngle, if_pos h]

theorem PushUpCounter.onAngle_up_puc (st : PushUpCounter.State) (a : K) (h : 160 < a) :
    PushUpCounter.onAngle st a =
      if st.lastStage = "down" then
        { lastStage := "up", counter := st.counter + 1, status := "Up" }
      else
        { lastStage := st.lastStage, counter := st.counter, status := "Up" } := by
  have h' : ¬ a < 90 := fun h2 => not_up_of_lt_down h2 h
  simp only [PushUpCounter.onAngle, if_neg h', gt_iff_lt, if_pos h]

theorem PushUpCounter.onAngle_band_puc (st : PushUpCounter.State) (a : K) (h1 : 90 ≤ a)
    (h2 : a ≤ 160) : PushUpCounter.onAngle st a = st := by
  simp only [PushUpCounter.onAngle, if_neg (not_lt.2 h1), gt_iff_lt, if_neg (not_lt.2 h2)]

theorem App.onAngle_counter (st : App.State K) (a : K) :
    (App.onAngle st a).1.counter =
      if 160 < a ∧ st.lastStage = "down" then st.counter + 1 else st.counter := by
  rcases lt_or_le a 90 with h | h
  · have e : (if 160 < a ∧ st.lastStage = "down" then st.counter + 1 else st.counter)
        = st.counter := if_neg (fun hh => not_up_of_lt_down h hh.1)
    rw [e, App.onAngle_down st a h]
    split_ifs <;> rfl
  · rcases le_or_lt a 160 with h2 | h2
    · rw [App.onAngle_band st a h h2, if_neg (fun hh => absurd hh.1 (not_lt.2 h2))]
    · rw [App.onAngle_up st a h2]
      by_cases h3 : st.lastStage = "down"
      · rw [if_pos h3, if_pos ⟨h2, h3⟩]
      · rw [if_neg h3, if_neg (fun hh => h3 hh.2)]

theorem PushUpCounter.onAngle_counter_puc (st : PushUpCounter.State) (a : K) :
    (PushUpCounter.onAngle st a).counter =
      if 160 < a ∧ st.lastStage = "down" then st.counter + 1 else st.counter := by
  rcases lt_or_le a 90 with h | h
  · have e : (if 160 < a ∧ st.lastStage = "down" then st.counter + 1 else st.counter)
        = st.counter := if_neg (fun hh => not_up_of_lt_down h hh.1)
    rw [e, PushUpCounter.onAngle_down_puc st a h]
    split_ifs <;> rfl
  · rcases le_or_lt a 160 with h2 | h2
    · rw [PushUpCounter.onAngle_band_puc st a h h2, if_neg (fun hh => absurd hh.1 (not_lt.2 h2))]
    · rw [PushUpCounter.onAngle_up_puc st a h2]
      by_cases h3 : st.lastStage = "down"
      · rw [if_pos h3, if_pos ⟨h2, h3⟩]
      · rw [if_neg h3, if_neg (fun hh => h3 hh.2)]

theorem App.tick_counter_of_completes (M : JSMath K) (st : App.State K) (poses : List (Pose K))
    (h : App.completesRep M st poses) : (App.tick M st poses).1.counter = st.counter + 1 := by
  obtain ⟨⟨a, ha, h160⟩, hd⟩ := h
  rw [App.tick_of_angle M st poses a ha, App.onAngle_counter, if_pos ⟨h160, hd⟩]

theorem App.tick_counter_of_not_completes (M : JSMath K) (st : App.State K)
    (poses : List (Pose K)) (h : ¬ App.completesRep M st poses) :
    (App.tick M st poses).1.counter = st.counter := by
  rcases ha : App.sampleAngle M poses with _ | a
  · rw [App.tick_of_none M st poses ha]
  · rw [App.tick_of_angle M st poses a ha, App.onAngle_counter, if_neg]
    exact fun hh => h ⟨⟨a, ha, hh.1⟩, hh.2⟩

theorem PushUpCounter.tick_counter_of_completes_puc (M : JSMath K) (st : PushUpCounter.State)
    (poses : List (Pose K)) (h : PushUpCounter.completesRep M st poses) :
    (PushUpCounter.tick M st poses).counter = st.counter + 1 := by
  obtain ⟨⟨a, ha, h160⟩, hd⟩ := h
  rw [PushUpCounter.tick_of_angle_puc M st poses a ha, PushUpCounter.onAngle_counter_puc,
    if_pos ⟨h160, hd⟩]

theorem PushUpCounter.tick_counter_of_not_completes_puc (M : JSMath K) (st : PushUpCounter.State)
    (poses : List (Pose K)) (h : ¬ PushUpCounter.completesRep M st poses) :
    (PushUpCounter.tick M st poses).counter = st.counter := by
  rcases ha : PushUpCounter.sampleAngle M poses with _ | a
  · rw [PushUpCounter.tick_of_none_puc M st poses ha]
  · rw [PushUpCounter.tick_of_angle_puc M st poses a ha, PushUpCounter.onAngle_counter_puc, if_neg]
    exact fun hh => h ⟨⟨a, ha, hh.1⟩, hh.2⟩

end Machine


section Progress

variable {K : Type} [LinearOrderedField K]

theorem App.onAngle_progress (st : App.State K) (a : K) :
    (App.onAngle st a).1.progress = min 100 (max 0 (((160 - a) / (160 - 90)) * 100)) := by
  rcases lt_or_le a 90 with h | h
  · rw [App.onAngle_down st a h]; split_ifs <;> rfl
  · rcases le_or_lt a 160 with h2 | h2
    · rw [App.onAngle_band st a h h2]
    · rw [App.onAngle_up st a h2]; split_ifs <;> rfl

theorem min_max_eq_clamp (x : K) : min 100 (max 0 x) = clamp x 0 100 := by
  unfold clamp
  rcases lt_or_le x 0 with h | h
  · rw [if_pos h, max_eq_left (le_of_lt h)]
    exact min_eq_right (by norm_num)
  · rw [if_neg (not_lt.2 h), max_eq_right h]
    rcases lt_or_le 100 x with h2 | h2
    · rw [if_pos h2]; exact min_eq_left (le_of_lt h2)
    · rw [if_neg (not_lt.2 h2)]; exact min_eq_right h2

theorem progressSpec_bounds (a : K) : 0 ≤ progressSpec a ∧ progressSpec a ≤ 100 := by
  unfold progressSpec
  rw [← min_max_eq_clamp]
  exact ⟨le_min (by norm_num) (le_max_left _ _), min_le_left _ _⟩

theorem progressSpec_of_up (a : K) (h : 160 ≤ a) : progressSpec a = 0 := by
  unfold progressSpec
  rw [← min_max_eq_clamp]
  have hx : ((160 - a) / (160 - 90)) * 100 ≤ 0 := by
    have : (160 - a) / (160 - 90) ≤ 0 :=
      div_nonpos_of_nonpos_of_nonneg (by linarith) (by norm_num)
    exact mul_nonpos_of_nonpos_of_nonneg this (by norm_num)
  rw [max_eq_left hx]
  exact min_eq_right (by norm_num)

theorem progressSpec_of_down (a : K) (h : a ≤ 90) : progressSpec a = 100 := by
  unfold progressSpec
  rw [← min_max_eq_clamp]
  have hx : (100 : K) ≤ ((160 - a) / (160 - 90)) * 100 := by
    have h70 : (160 : K) - 90 = 70 := by norm_num
    rw [h70]
    have : (1 : K) ≤ (160 - a) / 70 := by
      rw [le_div_iff₀ (by norm_num)]; linarith
    nlinarith
  rw [max_eq_right (le_trans (by norm_num) hx)]
  exact min_eq_left hx

theorem progressSpec_mid : progressSpec (125 : K) = 50 := by
  unfold progressSpec clamp
  have e : (((160 : K) - 125) / (160 - 90)) * 100 = 50 := by norm_num
  rw [e, if_neg (by norm_num), if_neg (by norm_num)]

end Progress

section Runs

variable {K : Type} [LinearOrderedField K]

theorem App.run_nil (M : JSMath K) (st : App.State K) : App.run M st [] = st := rfl

theorem App.run_cons (M : JSMath K) (st : App.State K) (s : List (Pose K))
    (rest : List (List (Pose K))) :
    App.run M st (s :: rest) = App.run M (App.tick M st s).1 rest := rfl

theorem PushUpCounter.run_nil_puc (M : JSMath K) (st : PushUpCounter.State) :
    PushUpCounter.run M st [] = st := rfl

theorem PushUpCounter.run_cons_puc (M : JSMath K) (st : PushUpCounter.State) (s : List (Pose K))
    (rest : List (List (Pose K))) :
    PushUpCounter.run M st (s :: rest) = PushUpCounter.run M (PushUpCounter.tick M st s) rest :=
  rfl

theorem App.run_append (M : JSMath K) (st : App.State K) (xs ys : List (List (Pose K))) :
    App.run M st (xs ++ ys) = App.run M (App.run M st xs) ys := by
  simp [App.run, List.foldl_append]

theorem PushUpCounter.run_append_puc (M : JSMath K) (st : PushUpCounter.State)
    (xs ys : List (List (Pose K))) :
    PushUpCounter.run M st (xs ++ ys) = PushUpCounter.run M (PushUpCounter.run M st xs) ys := by
  simp [PushUpCounter.run, List.foldl_append]

/-- Processing an angle a second time changes nothing and speaks nothing. -/
theorem App.onAngle_idem (st : App.State K) (a : K) :
    App.onAngle (App.onAngle st a).1 a = ((App.onAngle st a).1, []) := by
  rcases lt_or_le a 90 with h | h
  · rw [App.onAngle_down st a h]
    by_cases hu : st.lastStage = "up"
    · rw [if_pos hu, App.onAngle_down _ a h]; simp
    · rw [if_neg hu, App.onAngle_down _ a h]; simp [hu]
  · rcases le_or_lt a 160 with h2 | h2
    · rw [App.onAngle_band st a h h2, App.onAngle_band _ a h h2]
    · rw [App.onAngle_up st a h2]
      by_cases hd : st.lastStage = "down"
      · rw [if_pos hd, App.onAngle_up _ a h2]; simp
      · rw [if_neg hd, App.onAngle_up _ a h2]; simp [hd]

theorem PushUpCounter.onAngle_idem_puc (st : PushUpCounter.State) (a : K) :
    PushUpCounter.onAngle (PushUpCounter.onAngle st a) a = PushUpCounter.onAngle st a := by
  rcases lt_or_le a 90 with h | h
  · rw [PushUpCounter.onAngle_down_puc st a h]
    by_cases hu : st.lastStage = "up"
    · rw [if_pos hu, PushUpCounter.onAngle_down_puc _ a h]; simp
    · rw [if_neg hu, PushUpCounter.onAngle_down_puc _ a h]; simp [hu]
  · rcases le_or_lt a 160 with h2 | h2
    · rw [PushUpCounter.onAngle_band_puc st a h h2, PushUpCounter.onAngle_band_puc _ a h h2]
    · rw [PushUpCounter.onAngle_up_puc st a h2]
      by_cases hd : st.lastStage = "down"
      · rw [if_pos hd, PushUpCounter.onAngle_up_puc _ a h2]; simp
      · rw [if_neg hd, PushUpCounter.onAngle_up_puc _ a h2]; simp [hd]

theorem App.tick_idem (M : JSMath K) (st : App.State K) (s1 s2 : List (Pose K))
    (h : App.sampleAngle M s1 = App.sampleAngle M s2) :
    App.tick M (App.tick M st s1).1 s2 = ((App.tick M st s1).1, []) := by
  rcases h1 : App.sampleAngle M s1 with _ | a
  · rw [App.tick_of_none M st s1 h1, App.tick_of_none M st s2 (h ▸ h1)]
  · rw [App.tick_of_angle M st s1 a h1, App.tick_of_angle M _ s2 a (h ▸ h1),
      App.onAngle_idem]

theorem PushUpCounter.tick_idem_puc (M : JSMath K) (st : PushUpCounter.State)
    (s1 s2 : List (Pose K))
    (h : PushUpCounter.sampleAngle M s1 = PushUpCounter.sampleAngle M s2) :
    PushUpCounter.tick M (PushUpCounter.tick M st s1) s2 = PushUpCounter.tick M st s1 := by
  rcases h1 : PushUpCounter.sampleAngle M s1 with _ | a
  · rw [PushUpCounter.tick_of_none_puc M st s1 h1, PushUpCounter.tick_of_none_puc M st s2 (h ▸ h1)]
  · rw [PushUpCounter.tick_of_angle_puc M st s1 a h1,
      PushUpCounter.tick_of_angle_puc M _ s2 a (h ▸ h1), PushUpCounter.onAngle_idem_puc]

/-- While the last stage is "up", samples above 160 keep the counter. -/
theorem App.run_up_stable (M : JSMath K) (samples : List (List (Pose K)))
    (hall : ∀ s ∈ samples, ∃ a, App.sampleAngle M s = some a ∧ 160 < a) :
    ∀ st : App.State K, st.lastStage = "up" →
      (App.run M st samples).counter = st.counter ∧
      (App.run M st samples).lastStage = "up" := by
  induction samples with
  | nil => intro st h; exact ⟨rfl, h⟩
  | cons s rest ih =>
    intro st h
    obtain ⟨a, ha, h160⟩ := hall s (List.mem_cons_self _ _)
    have hne : ¬ st.lastStage = "down" := by rw [h]; decide
    have e : App.tick M st s = App.onAngle st a := App.tick_of_angle M st s a ha
    rw [App.onAngle_up st a h160, if_neg hne] at e
    have r := ih (fun s' hs' => hall s' (List.mem_cons_of_mem _ hs')) (App.tick M st s).1
      (by rw [e]; exact h)
    rw [App.run_cons]
    refine ⟨r.1.trans ?_, r.2⟩
    rw [e]

theorem PushUpCounter.run_up_stable_puc (M : JSMath K) (samples : List (List (Pose K)))
    (hall : ∀ s ∈ samples, ∃ a, PushUpCounter.sampleAngle M s = some a ∧ 160 < a) :
    ∀ st : PushUpCounter.State, st.lastStage = "up" →
      (PushUpCounter.run M st samples).counter = st.counter ∧
      (PushUpCounter.run M st samples).lastStage = "up" := by
  induction samples with
  | nil => intro st h; exact ⟨rfl, h⟩
  | cons s rest ih =>
    intro st h
    obtain ⟨a, ha, h160⟩ := hall s (List.mem_cons_self _ _)
    have hne : ¬ st.lastStage = "down" := by rw [h]; decide
    have e : PushUpCounter.tick M st s = PushUpCounter.onAngle st a :=
      PushUpCounter.tick_of_angle_puc M st s a ha
    rw [PushUpCounter.onAngle_up_puc st a h160, if_neg hne] at e
    have r := ih (fun s' hs' => hall s' (List.mem_cons_of_mem _ hs'))
      (PushUpCounter.tick M st s) (by rw [e]; exact h)
    rw [PushUpCounter.run_cons_puc]
    refine ⟨r.1.trans ?_, r.2⟩
    rw [e]

theorem App.run_up_from_down (M : JSMath K) (st : App.State K)
    (samples : List (List (Pose K))) (hne : samples ≠ [])
    (hall : ∀ s ∈ samples, ∃ a, App.sampleAngle M s = some a ∧ 160 < a)
    (hd : st.lastStage = "down") :
    (App.run M st samples).counter = st.counter + 1 := by
  cases samples with
  | nil => exact absurd rfl hne
  | cons s rest =>
    obtain ⟨a, ha, h160⟩ := hall s (List.mem_cons_self _ _)
    have e : App.tick M st s = App.onAngle st a := App.tick_of_angle M st s a ha
    rw [App.onAngle_up st a h160, if_pos hd] at e
    have r := App.run_up_stable M rest (fun s' hs' => hall s' (List.mem_cons_of_mem _ hs'))
      (App.tick M st s).1 (by rw [e])
    rw [App.run_cons, r.1, e]

theorem PushUpCounter.run_up_from_down_puc (M : JSMath K) (st : PushUpCounter.State)
    (samples : List (List (Pose K))) (hne : samples ≠ [])
    (hall : ∀ s ∈ samples, ∃ a, PushUpCounter.sampleAngle M s = some a ∧ 160 < a)
    (hd : st.lastStage = "down") :
    (PushUpCounter.run M st samples).counter = st.counter + 1 := by
  cases samples with
  | nil => exact absurd rfl hne
  | cons s rest =>
    obtain ⟨a, ha, h160⟩ := hall s (List.mem_cons_self _ _)
    have e : PushUpCounter.tick M st s = PushUpCounter.onAngle st a :=
      PushUpCounter.tick_of_angle_puc M st s a ha
    rw [PushUpCounter.onAngle_up_puc st a h160, if_pos hd] at e
    have r := PushUpCounter.run_up_stable_puc M rest
      (fun s' hs' => hall s' (List.mem_cons_of_mem _ hs')) (PushUpCounter.tick M st s)
      (by rw [e])
    rw [PushUpCounter.run_cons_puc, r.1, e]

end Runs

section Cycles

variable {K : Type} [LinearOrderedField K]

/-- From a state showing "Up" with last stage "up", `k` cycles (a sample at
70 then a sample at 170) add exactly `k` and end in the same phase. -/
theorem App.run_cycles (M : JSMath K) (up down : List (Pose K))
    (hup : App.sampleAngle M up = some 170) (hdown : App.sampleAngle M down = some 70)
    (k : Nat) :
    ∀ st : App.State K, st.lastStage = "up" → st.status = "Up" →
      (App.run M st (cycles down up k)).counter = st.counter + k ∧
      (App.run M st (cycles down up k)).lastStage = "up" ∧
      (App.run M st (cycles down up k)).status = "Up" := by
  induction k with
  | zero => intro st h1 h2; exact ⟨rfl, h1, h2⟩
  | succ k ih =>
    intro st h1 h2
    have e1 : App.tick M st down = App.onAngle st 70 := App.tick_of_angle M st down 70 hdown
    rw [App.onAngle_down st 70 (by norm_num), if_pos h1] at e1
    have e2 : App.tick M (App.tick M st down).1 up = App.onAngle (App.tick M st down).1 170 :=
      App.tick_of_angle M _ up 170 hup
    rw [App.onAngle_up _ 170 (by norm_num), if_pos (by rw [e1])] at e2
    have r := ih (App.tick M (App.tick M st down).1 up).1 (by rw [e2]) (by rw [e2])
    show (App.run M st (down :: up :: cycles down up k)).counter = _ ∧
      (App.run M st (down :: up :: cycles down up k)).lastStage = _ ∧
      (App.run M st (down :: up :: cycles down up k)).status = _
    rw [App.run_cons, App.run_cons]
    refine ⟨r.1.trans ?_, r.2.1, r.2.2⟩
    rw [e2, e1]
    show st.counter + 1 + k = st.counter + (k + 1)
    omega

theorem PushUpCounter.run_cycles_puc (M : JSMath K) (up down : List (Pose K))
    (hup : PushUpCounter.sampleAngle M up = some 170)
    (hdown : PushUpCounter.sampleAngle M down = some 70) (k : Nat) :
    ∀ st : PushUpCounter.State, st.lastStage = "up" → st.status = "Up" →
      (PushUpCounter.run M st (cycles down up k)).counter = st.counter + k ∧
      (PushUpCounter.run M st (cycles down up k)).lastStage = "up" ∧
      (PushUpCounter.run M st (cycles down up k)).status = "Up" := by
  induction k with
  | zero => intro st h1 h2; exact ⟨rfl, h1, h2⟩
  | succ k ih =>
    intro st h1 h2
    have e1 : PushUpCounter.tick M st down = PushUpCounter.onAngle st (70 : K) :=
      PushUpCounter.tick_of_angle_puc M st down 70 hdown
    rw [PushUpCounter.onAngle_down_puc st 70 (by norm_num), if_pos h1] at e1
    have e2 : PushUpCounter.tick M (PushUpCounter.tick M st down) up =
        PushUpCounter.onAngle (PushUpCounter.tick M st down) (170 : K) :=
      PushUpCounter.tick_of_angle_puc M _ up 170 hup
    rw [PushUpCounter.onAngle_up_puc _ 170 (by norm_num), if_pos (by rw [e1])] at e2
    have r := ih (PushUpCounter.tick M (PushUpCounter.tick M st down) up)
      (by rw [e2]) (by rw [e2])
    show (PushUpCounter.run M st (down :: up :: cycles down up k)).counter = _ ∧
      (PushUpCounter.run M st (down :: up :: cycles down up k)).lastStage = _ ∧
      (PushUpCounter.run M st (down :: up :: cycles down up k)).status = _
    rw [PushUpCounter.run_cons_puc, PushUpCounter.run_cons_puc]
    refine ⟨r.1.trans ?_, r.2.1, r.2.2⟩
    rw [e2, e1]
    show st.counter + 1 + k = st.counter + (k + 1)
    omega

/-- The first sample at 170 degrees only sets the status. -/
theorem App.tick_init_up (M : JSMath K) (up : List (Pose K))
    (hup : App.sampleAngle M up = some 170) :
    (App.tick M App.init up).1.lastStage = "up" ∧
    (App.tick M App.init up).1.status = "Up" ∧
    (App.tick M App.init up).1.counter = 0 ∧
    (App.tick M App.init up).2 = [] := by
  have e : App.tick M App.init up = App.onAngle App.init 170 :=
    App.tick_of_angle M _ up 170 hup
  have hne : ¬ (App.init : App.State K).lastStage = "down" := by
    show ¬ "up" = "down"
    decide
  rw [App.onAngle_up _ 170 (by norm_num), if_neg hne] at e
  rw [e]
  exact ⟨rfl, rfl, rfl, rfl⟩

theorem PushUpCounter.tick_init_up_puc (M : JSMath K) (up : List (Pose K))
    (hup : PushUpCounter.sampleAngle M up = some 170) :
    (PushUpCounter.tick M PushUpCounter.init up).lastStage = "up" ∧
    (PushUpCounter.tick M PushUpCounter.init up).status = "Up" ∧
    (PushUpCounter.tick M PushUpCounter.init up).counter = 0 := by
  have e : PushUpCounter.tick M PushUpCounter.init up =
      PushUpCounter.onAngle PushUpCounter.init (170 : K) :=
    PushUpCounter.tick_of_angle_puc M _ up 170 hup
  rw [PushUpCounter.onAngle_up_puc _ 170 (by norm_num), if_neg (by decide)] at e
  rw [e]
  exact ⟨rfl, rfl, rfl⟩

end Cycles

section Invariant

variable {K : Type} [LinearOrderedField K]

theorem App.agree_init : App.Agree (App.init : App.State K) :=
  Or.inl ⟨rfl, rfl⟩

theorem PushUpCounter.agree_init_puc : PushUpCounter.Agree PushUpCounter.init :=
  Or.inl ⟨rfl, rfl⟩

theorem App.onAngle_agree (st : App.State K) (a : K) (h : App.Agree st) :
    App.Agree (App.onAngle st a).1 := by
  have hud : ¬ ("up" : String) = "down" := by decide
  have hdu : ¬ ("down" : String) = "up" := by decide
  rcases lt_or_le a 90 with h1 | h1
  · rw [App.onAngle_down st a h1]
    rcases h with ⟨_, hl⟩ | ⟨_, hl⟩ | ⟨_, hl⟩
    · rw [if_pos hl]; exact Or.inr (Or.inr ⟨rfl, rfl⟩)
    · rw [if_pos hl]; exact Or.inr (Or.inr ⟨rfl, rfl⟩)
    · rw [if_neg (by rw [hl]; exact hdu)]; exact Or.inr (Or.inr ⟨rfl, hl⟩)
  · rcases le_or_lt a 160 with h2 | h2
    · rw [App.onAngle_band st a h1 h2]; exact h
    · rw [App.onAngle_up st a h2]
      rcases h with ⟨_, hl⟩ | ⟨_, hl⟩ | ⟨_, hl⟩
      · rw [if_neg (by rw [hl]; exact hud)]; exact Or.inr (Or.inl ⟨rfl, hl⟩)
      · rw [if_neg (by rw [hl]; exact hud)]; exact Or.inr (Or.inl ⟨rfl, hl⟩)
      · rw [if_pos hl]; exact Or.inr (Or.inl ⟨rfl, rfl⟩)

theorem PushUpCounter.onAngle_agree_puc (st : PushUpCounter.State) (a : K)
    (h : PushUpCounter.Agree st) : PushUpCounter.Agree (PushUpCounter.onAngle st a) := by
  have hud : ¬ ("up" : String) = "down" := by decide
  have hdu : ¬ ("down" : String) = "up" := by decide
  rcases lt_or_le a 90 with h1 | h1
  · rw [PushUpCounter.onAngle_down_puc st a h1]
    rcases h with ⟨_, hl⟩ | ⟨_, hl⟩ | ⟨_, hl⟩
    · rw [if_pos hl]; exact Or.inr (Or.inr ⟨rfl, rfl⟩)
    · rw [if_pos hl]; exact Or.inr (Or.inr ⟨rfl, rfl⟩)
    · rw [if_neg (by rw [hl]; exact hdu)]; exact Or.inr (Or.inr ⟨rfl, hl⟩)
  · rcases le_or_lt a 160 with h2 | h2
    · rw [PushUpCounter.onAngle_band_puc st a h1 h2]; exact h
    · rw [PushUpCounter.onAngle_up_puc st a h2]
      rcases h with ⟨_, hl⟩ | ⟨_, hl⟩ | ⟨_, hl⟩
      · rw [if_neg (by rw [hl]; exact hud)]; exact Or.inr (Or.inl ⟨rfl, hl⟩)
      · rw [if_neg (by rw [hl]; exact hud)]; exact Or.inr (Or.inl ⟨rfl, hl⟩)
      · rw [if_pos hl]; exact Or.inr (Or.inl ⟨rfl, rfl⟩)

theorem App.tick_agree (M : JSMath K) (st : App.State K) (poses : List (Pose K))
    (h : App.Agree st) : App.Agree (App.tick M st poses).1 := by
  rcases ha : App.sampleAngle M poses with _ | a
  · rw [App.tick_of_none M st poses ha]; exact h
  · rw [App.tick_of_angle M st poses a ha]; exact App.onAngle_agree st a h

theorem PushUpCounter.tick_agree_puc (M : JSMath K) (st : PushUpCounter.State)
    (poses : List (Pose K)) (h : PushUpCounter.Agree st) :
    PushUpCounter.Agree (PushUpCounter.tick M st poses) := by
  rcases ha : PushUpCounter.sampleAngle M poses with _ | a
  · rw [PushUpCounter.tick_of_none_puc M st poses ha]; exact h
  · rw [PushUpCounter.tick_of_angle_puc M st poses a ha]; exact PushUpCounter.onAngle_agree_puc st a h

theorem App.run_agree (M : JSMath K) (samples : List (List (Pose K))) :
    ∀ st : App.State K, App.Agree st → App.Agree (App.run M st samples) := by
  induction samples with
  | nil => intro st h; exact h
  | cons s rest ih => intro st h; exact ih _ (App.tick_agree M st s h)

theorem PushUpCounter.run_agree_puc (M : JSMath K) (samples : List (List (Pose K))) :
    ∀ st : PushUpCounter.State, PushUpCounter.Agree st →
      PushUpCounter.Agree (PushUpCounter.run M st samples) := by
  induction samples with
  | nil => intro st h; exact h
  | cons s rest ih => intro st h; exact ih _ (PushUpCounter.tick_agree_puc M st s h)

/-- A step keeps the status or sets it to "Up" or "Down". -/
theorem App.tick_status (M : JSMath K) (st : App.State K) (poses : List (Pose K)) :
    (App.tick M st poses).1.status = st.status ∨
    (App.tick M st poses).1.status = "Up" ∨ (App.tick M st poses).1.status = "Down" := by
  rcases ha : App.sampleAngle M poses with _ | a
  · rw [App.tick_of_none M st poses ha]; exact Or.inl rfl
  · rw [App.tick_of_angle M st poses a ha]
    rcases lt_or_le a 90 with h1 | h1
    · rw [App.onAngle_down st a h1]; split_ifs <;> exact Or.inr (Or.inr rfl)
    · rcases le_or_lt a 160 with h2 | h2
      · rw [App.onAngle_band st a h1 h2]; exact Or.inl rfl
      · rw [App.onAngle_up st a h2]; split_ifs <;> exact Or.inr (Or.inl rfl)

theorem PushUpCounter.tick_status_puc (M : JSMath K) (st : PushUpCounter.State)
    (poses : List (Pose K)) :
    (PushUpCounter.tick M st poses).status = st.status ∨
    (PushUpCounter.tick M st poses).status = "Up" ∨
    (PushUpCounter.tick M st poses).status = "Down" := by
  rcases ha : PushUpCounter.sampleAngle M poses with _ | a
  · rw [PushUpCounter.tick_of_none_puc M st poses ha]; exact Or.inl rfl
  · rw [PushUpCounter.tick_of_angle_puc M st poses a ha]
    rcases lt_or_le a 90 with h1 | h1
    · rw [PushUpCounter.onAngle_down_puc st a h1]; split_ifs <;> exact Or.inr (Or.inr rfl)
    · rcases le_or_lt a 160 with h2 | h2
      · rw [PushUpCounter.onAngle_band_puc st a h1 h2]; exact Or.inl rfl
      · rw [PushUpCounter.onAngle_up_puc st a h2]; split_ifs <;> exact Or.inr (Or.inl rfl)

theorem App.run_settled (M : JSMath K) (samples : List (List (Pose K))) :
    ∀ st : App.State K, (st.status = "Up" ∨ st.status = "Down") →
      ((App.run M st samples).status = "Up" ∨ (App.run M st samples).status = "Down") := by
  induction samples with
  | nil => intro st h; exact h
  | cons s rest ih =>
    intro st h
    refine ih _ ?_
    rcases App.tick_status M st s with e | e
    · rw [e]; exact h
    · exact e

theorem PushUpCounter.run_settled_puc (M : JSMath K) (samples : List (List (Pose K))) :
    ∀ st : PushUpCounter.State, (st.status = "Up" ∨ st.status = "Down") →
      ((PushUpCounter.run M st samples).status = "Up" ∨
        (PushUpCounter.run M st samples).status = "Down") := by
  induction samples with
  | nil => intro st h; exact h
  | cons s rest ih =>
    intro st h
    refine ih _ ?_
    rcases PushUpCounter.tick_status_puc M st s with e | e
    · rw [e]; exact h
    · exact e

theorem PushUpCounter.agree_down_iff_puc (st : PushUpCounter.State) (h : PushUpCounter.Agree st) :
    (st.status = "Down" ↔ st.lastStage = "down") ∧ (st.status = "Up" → st.lastStage = "up") := by
  rcases h with ⟨hs, hl⟩ | ⟨hs, hl⟩ | ⟨hs, hl⟩ <;> rw [hs, hl] <;> decide

end Invariant

theorem App.agree_down_iff {K : Type} (st : App.State K) (h : App.Agree st) :
    (st.status = "Down" ↔ st.lastStage = "down") ∧ (st.status = "Up" → st.lastStage = "up") := by
  rcases h with ⟨hs, hl⟩ | ⟨hs, hl⟩ | ⟨hs, hl⟩ <;> rw [hs, hl] <;> decide

section Landmarks

variable {K : Type} [LinearOrderedField K]

theorem App.sampleAngle_eq_landmarks (M : JSMath K) (poses : List (Pose K)) :
    App.sampleAngle M poses =
      (App.landmarks poses).map (fun t => App.getAngle M t.1 t.2.1 t.2.2) := by
  cases poses with
  | nil => rfl
  | cons pose rest =>
    simp only [App.sampleAngle, App.landmarks]
    split <;> rfl

theorem PushUpCounter.sampleAngle_eq_landmarks_puc (M : JSMath K) (poses : List (Pose K)) :
    PushUpCounter.sampleAngle M poses =
      (PushUpCounter.landmarks poses).map
        (fun t => PushUpCounter.getAngle M t.1 t.2.1 t.2.2) := by
  cases poses with
  | nil => rfl
  | cons pose rest =>
    simp only [PushUpCounter.sampleAngle, PushUpCounter.landmarks]
    split <;> rfl

theorem App.sampleAngle_of_landmarks (M : JSMath K) (poses : List (Pose K))
    (sh el wr : Keypoint K) (h : App.landmarks poses = some (sh, el, wr)) :
    App.sampleAngle M poses = some (App.getAngle M sh el wr) := by
  rw [App.sampleAngle_eq_landmarks, h]; rfl

theorem PushUpCounter.sampleAngle_of_landmarks_puc (M : JSMath K) (poses : List (Pose K))
    (sh el wr : Keypoint K) (h : PushUpCounter.landmarks poses = some (sh, el, wr)) :
    PushUpCounter.sampleAngle M poses = some (PushUpCounter.getAngle M sh el wr) := by
  rw [PushUpCounter.sampleAngle_eq_landmarks_puc, h]; rfl

/-- The angle of App.js does not read the scores. -/
theorem App.sampleAngle_mapScores (M : JSMath K) (f : K → K) (poses : List (Pose K)) :
    App.sampleAngle M (mapScores f poses) = App.sampleAngle M poses := by
  cases poses with
  | nil => rfl
  | cons pose rest =>
    simp only [App.sampleAngle, mapScores, List.map_cons, List.getElem?_map]
    rcases pose.keypoints[6]? with _ | sh <;>
    rcases pose.keypoints[8]? with _ | el <;>
    rcases pose.keypoints[10]? with _ | wr <;> rfl

/-- The angle of app.js does not read the scores. -/
theorem PushUpCounter.sampleAngle_mapScores_puc (M : JSMath K) (f : K → K)
    (poses : List (Pose K)) :
    PushUpCounter.sampleAngle M (mapScores f poses) = PushUpCounter.sampleAngle M poses := by
  cases poses with
  | nil => rfl
  | cons pose rest =>
    have e : ∀ n : String,
        (pose.keypoints.map fun p => ({ p with score := f p.score } : Keypoint K)).find?
          (fun p => p.name == n)
        = (pose.keypoints.find? (fun p => p.name == n)).map
            (fun p => ({ p with score := f p.score } : Keypoint K)) := by
      intro n
      rw [List.find?_map]
      rfl
    simp only [PushUpCounter.sampleAngle, mapScores, List.map_cons]
    rw [e, e, e]
    rcases h6 : pose.keypoints.find? (fun p => p.name == "right_shoulder") with _ | sh <;>
    rcases h8 : pose.keypoints.find? (fun p => p.name == "right_elbow") with _ | el <;>
    rcases h10 : pose.keypoints.find? (fun p => p.name == "right_wrist") with _ | wr <;>
    simp only [h6, h8, h10] <;> rfl

end Landmarks

section RealAngles

theorem realMath_atan2_origin : realMath.atan2 0 0 = 0 := by
  show Complex.arg ⟨0, 0⟩ = 0
  have e : (⟨0, 0⟩ : ℂ) = 0 := by apply Complex.ext <;> simp
  rw [e, Complex.arg_zero]

theorem realMath_atan2_neg_x (x : ℝ) (h : x < 0) : realMath.atan2 0 x = Real.pi := by
  show Complex.arg ⟨x, 0⟩ = Real.pi
  have e : (⟨x, 0⟩ : ℂ) = (x : ℂ) := by apply Complex.ext <;> simp
  rw [e, Complex.arg_ofReal_of_neg h]

theorem realMath_atan2_neg_y (y : ℝ) (h : y < 0) : realMath.atan2 y 0 = -(Real.pi / 2) := by
  show Complex.arg ⟨0, y⟩ = -(Real.pi / 2)
  have e : (⟨0, y⟩ : ℂ) = ((-y : ℝ) : ℂ) * (-Complex.I) := by
    apply Complex.ext <;> simp
  rw [e, Complex.arg_real_mul _ (by linarith), Complex.arg_neg_I]

theorem realMath_atan2_range (y x : ℝ) :
    -realMath.PI ≤ realMath.atan2 y x ∧ realMath.atan2 y x ≤ realMath.PI :=
  ⟨le_of_lt (Complex.neg_pi_lt_arg _), Complex.arg_le_pi _⟩

theorem realMath_PI_pos : 0 < realMath.PI := Real.pi_pos

end RealAngles

section AngleRange

variable {K : Type} [LinearOrderedField K]

/-- With `atan2` valued in `[-PI, PI]`, the angle of app.js lies in [0, 180]. -/
theorem PushUpCounter.getAngle_range_puc (M : JSMath K) (hPI : 0 < M.PI)
    (hr : ∀ y x, -M.PI ≤ M.atan2 y x ∧ M.atan2 y x ≤ M.PI) (a b c : Keypoint K) :
    0 ≤ PushUpCounter.getAngle M a b c ∧ PushUpCounter.getAngle M a b c ≤ 180 := by
  unfold PushUpCounter.getAngle
  obtain ⟨l1, u1⟩ := hr (c.y - b.y) (c.x - b.x)
  obtain ⟨l2, u2⟩ := hr (a.y - b.y) (a.x - b.x)
  have hle : |((M.atan2 (c.y - b.y) (c.x - b.x) - M.atan2 (a.y - b.y) (a.x - b.x)) * 180)
      / M.PI| ≤ 360 := by
    rw [abs_div, abs_of_pos hPI, div_le_iff₀ hPI, abs_le]
    constructor <;> nlinarith
  simp only
  split_ifs with h
  · constructor <;> linarith
  · exact ⟨abs_nonneg _, not_lt.1 h⟩

/-- With `atan2` valued in `[-PI, PI]`, the angle of App.js lies in [0, 360]. -/
theorem App.getAngle_range (M : JSMath K) (hPI : 0 < M.PI)
    (hr : ∀ y x, -M.PI ≤ M.atan2 y x ∧ M.atan2 y x ≤ M.PI) (a b c : Keypoint K) :
    0 ≤ App.getAngle M a b c ∧ App.getAngle M a b c ≤ 360 := by
  unfold App.getAngle
  obtain ⟨l1, u1⟩ := hr (c.y - b.y) (c.x - b.x)
  obtain ⟨l2, u2⟩ := hr (a.y - b.y) (a.x - b.x)
  refine ⟨abs_nonneg _, ?_⟩
  have e : (M.atan2 (c.y - b.y) (c.x - b.x) - M.atan2 (a.y - b.y) (a.x - b.x)) * (180 / M.PI)
      = ((M.atan2 (c.y - b.y) (c.x - b.x) - M.atan2 (a.y - b.y) (a.x - b.x)) * 180) / M.PI := by
    ring
  simp only
  rw [e, abs_div, abs_of_pos hPI, div_le_iff₀ hPI, abs_le]
  constructor <;> nlinarith

end AngleRange

section RealSamples

theorem App.getAngle_bentArm :
    App.getAngle realMath (landmark "right_shoulder" 100 200 1)
      (landmark "right_elbow" 200 200 1) (landmark "right_wrist" 200 100 1) = 270 := by
  have hpi := Real.pi_pos
  have e1 : realMath.atan2 ((100 : ℝ) - 200) (200 - 200) = -(Real.pi / 2) := by
    rw [sub_self]; exact realMath_atan2_neg_y _ (by norm_num)
  have e2 : realMath.atan2 ((200 : ℝ) - 200) (100 - 200) = Real.pi := by
    rw [sub_self]; exact realMath_atan2_neg_x _ (by norm_num)
  show |(realMath.atan2 ((100 : ℝ) - 200) (200 - 200) - realMath.atan2 ((200 : ℝ) - 200) (100 - 200))
    * (180 / Real.pi)| = 270
  rw [e1, e2]
  have e3 : (-(Real.pi / 2) - Real.pi) * (180 / Real.pi) = -270 := by
    field_simp; ring
  rw [e3, abs_neg]
  exact abs_of_nonneg (by norm_num)

theorem PushUpCounter.getAngle_bentArm_puc :
    PushUpCounter.getAngle realMath (landmark "right_shoulder" 100 200 1)
      (landmark "right_elbow" 200 200 1) (landmark "right_wrist" 200 100 1) = 90 := by
  have hpi := Real.pi_pos
  have e1 : realMath.atan2 ((100 : ℝ) - 200) (200 - 200) = -(Real.pi / 2) := by
    rw [sub_self]; exact realMath_atan2_neg_y _ (by norm_num)
  have e2 : realMath.atan2 ((200 : ℝ) - 200) (100 - 200) = Real.pi := by
    rw [sub_self]; exact realMath_atan2_neg_x _ (by norm_num)
  have e3 : |(-(Real.pi / 2) - Real.pi) * 180 / Real.pi| = 270 := by
    have : (-(Real.pi / 2) - Real.pi) * 180 / Real.pi = -270 := by
      field_simp; ring
    rw [this, abs_neg]
    exact abs_of_nonneg (by norm_num)
  show (if |(realMath.atan2 ((100 : ℝ) - 200) (200 - 200)
        - realMath.atan2 ((200 : ℝ) - 200) (100 - 200)) * 180 / realMath.PI| > 180
      then 360 - |(realMath.atan2 ((100 : ℝ) - 200) (200 - 200)
        - realMath.atan2 ((200 : ℝ) - 200) (100 - 200)) * 180 / realMath.PI|
      else |(realMath.atan2 ((100 : ℝ) - 200) (200 - 200)
        - realMath.atan2 ((200 : ℝ) - 200) (100 - 200)) * 180 / realMath.PI|) = 90
  rw [e1, e2]
  show (if |(-(Real.pi / 2) - Real.pi) * 180 / Real.pi| > 180
      then 360 - |(-(Real.pi / 2) - Real.pi) * 180 / Real.pi|
      else |(-(Real.pi / 2) - Real.pi) * 180 / Real.pi|) = 90
  rw [e3, if_pos (by norm_num)]
  norm_num

theorem App.sampleAngle_bentArm : App.sampleAngle realMath bentArm = some 270 := by
  rw [← App.getAngle_bentArm]; rfl

theorem PushUpCounter.sampleAngle_bentArm_puc :
    PushUpCounter.sampleAngle realMath bentArm = some 90 := by
  rw [← PushUpCounter.getAngle_bentArm_puc]
  simp [PushUpCounter.sampleAngle, bentArm, armPose, landmark, List.find?]

theorem App.getAngle_elbowOnShoulder :
    App.getAngle realMath (landmark "right_shoulder" 200 200 1)
      (landmark "right_elbow" 200 200 1) (landmark "right_wrist" 100 200 1) = 180 := by
  have hpi := Real.pi_pos
  have e1 : realMath.atan2 ((200 : ℝ) - 200) (100 - 200) = Real.pi := by
    rw [sub_self]; exact realMath_atan2_neg_x _ (by norm_num)
  have e2 : realMath.atan2 ((200 : ℝ) - 200) (200 - 200) = 0 := by
    rw [sub_self]; exact realMath_atan2_origin
  show |(realMath.atan2 ((200 : ℝ) - 200) (100 - 200) - realMath.atan2 ((200 : ℝ) - 200) (200 - 200))
    * (180 / Real.pi)| = 180
  rw [e1, e2]
  have e3 : (Real.pi - 0) * (180 / Real.pi) = 180 := by
    field_simp
  rw [e3]
  exact abs_of_nonneg (by norm_num)

theorem PushUpCounter.getAngle_elbowOnShoulder_puc :
    PushUpCounter.getAngle realMath (landmark "right_shoulder" 200 200 1)
      (landmark "right_elbow" 200 200 1) (landmark "right_wrist" 100 200 1) = 180 := by
  have hpi := Real.pi_pos
  have e1 : realMath.atan2 ((200 : ℝ) - 200) (100 - 200) = Real.pi := by
    rw [sub_self]; exact realMath_atan2_neg_x _ (by norm_num)
  have e2 : realMath.atan2 ((200 : ℝ) - 200) (200 - 200) = 0 := by
    rw [sub_self]; exact realMath_atan2_origin
  have e3 : |(Real.pi - 0) * 180 / Real.pi| = 180 := by
    have : (Real.pi - 0) * 180 / Real.pi = 180 := by field_simp
    rw [this]
    exact abs_of_nonneg (by norm_num)
  show (if |(realMath.atan2 ((200 : ℝ) - 200) (100 - 200)
        - realMath.atan2 ((200 : ℝ) - 200) (200 - 200)) * 180 / realMath.PI| > 180
      then 360 - |(realMath.atan2 ((200 : ℝ) - 200) (100 - 200)
        - realMath.atan2 ((200 : ℝ) - 200) (200 - 200)) * 180 / realMath.PI|
      else |(realMath.atan2 ((200 : ℝ) - 200) (100 - 200)
        - realMath.atan2 ((200 : ℝ) - 200) (200 - 200)) * 180 / realMath.PI|) = 180
  rw [e1, e2]
  show (if |(Real.pi - 0) * 180 / Real.pi| > 180
      then 360 - |(Real.pi - 0) * 180 / Real.pi|
      else |(Real.pi - 0) * 180 / Real.pi|) = 180
  rw [e3, if_neg (by norm_num)]

theorem App.sampleAngle_elbowOnShoulder :
    App.sampleAngle realMath elbowOnShoulder = some 180 := by
  rw [← App.getAngle_elbowOnShoulder]; rfl

theorem PushUpCounter.sampleAngle_elbowOnShoulder_puc :
    PushUpCounter.sampleAngle realMath elbowOnShoulder = some 180 := by
  rw [← PushUpCounter.getAngle_elbowOnShoulder_puc]
  simp [PushUpCounter.sampleAngle, elbowOnShoulder, armPose, landmark, List.find?]

end RealSamples

section Degenerate

/-- With the elbow on the shoulder, the angle of App.js is the direction of
the wrist seen from the elbow, in degrees and without sign. -/
theorem App.getAngle_elbow_on_shoulder (sh el wr : Keypoint ℝ) (h : coincide el sh) :
    App.getAngle realMath sh el wr =
      |realMath.atan2 (wr.y - el.y) (wr.x - el.x)| * (180 / Real.pi) := by
  have hpos : 0 < 180 / Real.pi := div_pos (by norm_num) Real.pi_pos
  have ex : sh.x - el.x = 0 := by rw [h.1]; exact sub_self _
  have ey : sh.y - el.y = 0 := by rw [h.2]; exact sub_self _
  show |(realMath.atan2 (wr.y - el.y) (wr.x - el.x) - realMath.atan2 (sh.y - el.y) (sh.x - el.x))
    * (180 / Real.pi)| = _
  rw [ex, ey, realMath_atan2_origin, sub_zero, abs_mul, abs_of_pos hpos]

/-- With the elbow on the wrist, the angle of App.js is the direction of the
shoulder seen from the elbow, in degrees and without sign. -/
theorem App.getAngle_elbow_on_wrist (sh el wr : Keypoint ℝ) (h : coincide el wr) :
    App.getAngle realMath sh el wr =
      |realMath.atan2 (sh.y - el.y) (sh.x - el.x)| * (180 / Real.pi) := by
  have hpos : 0 < 180 / Real.pi := div_pos (by norm_num) Real.pi_pos
  have ex : wr.x - el.x = 0 := by rw [h.1]; exact sub_self _
  have ey : wr.y - el.y = 0 := by rw [h.2]; exact sub_self _
  show |(realMath.atan2 (wr.y - el.y) (wr.x - el.x) - realMath.atan2 (sh.y - el.y) (sh.x - el.x))
    * (180 / Real.pi)| = _
  rw [ex, ey, realMath_atan2_origin, zero_sub, abs_mul, abs_neg, abs_of_pos hpos]

/-- When the three points coincide both variants compute the angle 0. -/
theorem App.getAngle_all_coincide (sh el wr : Keypoint ℝ) (h1 : coincide el sh)
    (h2 : coincide el wr) : App.getAngle realMath sh el wr = 0 := by
  have ex : wr.x - el.x = 0 := by rw [h2.1]; exact sub_self _
  have ey : wr.y - el.y = 0 := by rw [h2.2]; exact sub_self _
  rw [App.getAngle_elbow_on_shoulder sh el wr h1, ex, ey, realMath_atan2_origin, abs_zero,
    zero_mul]

theorem PushUpCounter.getAngle_all_coincide_puc (sh el wr : Keypoint ℝ) (h1 : coincide el sh)
    (h2 : coincide el wr) : PushUpCounter.getAngle realMath sh el wr = 0 := by
  have ex : wr.x - el.x = 0 := by rw [h2.1]; exact sub_self _
  have ey : wr.y - el.y = 0 := by rw [h2.2]; exact sub_self _
  have ex' : sh.x - el.x = 0 := by rw [h1.1]; exact sub_self _
  have ey' : sh.y - el.y = 0 := by rw [h1.2]; exact sub_self _
  unfold PushUpCounter.getAngle
  rw [ex, ey, ex', ey', realMath_atan2_origin]
  simp

theorem App.progress_at_zero : min (100 : ℝ) (max 0 (((160 - 0) / (160 - 90)) * 100)) = 100 := by
  have h : (100 : ℝ) ≤ ((160 - 0) / (160 - 90)) * 100 := by norm_num
  rw [max_eq_right (le_trans (by norm_num) h)]
  exact min_eq_left h

end Degenerate
/-! ## The claims -/

section Claims

variable {K : Type} [LinearOrderedField K]

/-- C1: one detection step adds exactly 1 to the counter when the sample has
all three landmarks, its angle is above 160 and the last stage is "down"; in
every other case the counter is unchanged.  So the counter never decreases
and grows by at most 1 per sample.  Stated for the callback of App.js (state
`st`) and for the callback of app.js (state `st'`). -/
theorem C1_counter_step (M : JSMath K) (st : App.State K) (st' : PushUpCounter.State)
    (poses : List (Pose K)) :
    (App.completesRep M st poses → (App.tick M st poses).1.counter = st.counter + 1) ∧
    (¬ App.completesRep M st poses → (App.tick M st poses).1.counter = st.counter) ∧
    st.counter ≤ (App.tick M st poses).1.counter ∧
    (App.tick M st poses).1.counter ≤ st.counter + 1 ∧
    (PushUpCounter.completesRep M st' poses →
      (PushUpCounter.tick M st' poses).counter = st'.counter + 1) ∧
    (¬ PushUpCounter.completesRep M st' poses →
      (PushUpCounter.tick M st' poses).counter = st'.counter) ∧
    st'.counter ≤ (PushUpCounter.tick M st' poses).counter ∧
    (PushUpCounter.tick M st' poses).counter ≤ st'.counter + 1 := by
  have a1 := App.tick_counter_of_completes M st poses
  have a2 := App.tick_counter_of_not_completes M st poses
  have p1 := PushUpCounter.tick_counter_of_completes_puc M st' poses
  have p2 := PushUpCounter.tick_counter_of_not_completes_puc M st' poses
  refine ⟨a1, a2, ?_, ?_, p1, p2, ?_, ?_⟩
  · by_cases h : App.completesRep M st poses
    · rw [a1 h]; exact Nat.le_succ _
    · rw [a2 h]
  · by_cases h : App.completesRep M st poses
    · rw [a1 h]
    · rw [a2 h]; exact Nat.le_succ _
  · by_cases h : PushUpCounter.completesRep M st' poses
    · rw [p1 h]; exact Nat.le_succ _
    · rw [p2 h]
  · by_cases h : PushUpCounter.completesRep M st' poses
    · rw [p1 h]
    · rw [p2 h]; exact Nat.le_succ _

/-- C4: for an angle in the deadband, 90 and 160 included, one detection step
leaves status, last stage and counter unchanged and emits no event (neither
an utterance of the callback nor a count announcement).  In App.js only the
progress value is rewritten; in app.js the whole state is unchanged. -/
theorem C4_deadband (M : JSMath K) (st : App.State K) (st' : PushUpCounter.State)
    (poses : List (Pose K)) (a : K) (h1 : 90 ≤ a) (h2 : a ≤ 160) :
    (App.sampleAngle M poses = some a →
      (App.tick M st poses).1.status = st.status ∧
      (App.tick M st poses).1.lastStage = st.lastStage ∧
      (App.tick M st poses).1.counter = st.counter ∧
      (App.tick M st poses).2 = [] ∧
      App.counterEffect st.counter (App.tick M st poses).1.counter = []) ∧
    (PushUpCounter.sampleAngle M poses = some a →
      PushUpCounter.tick M st' poses = st') := by
  constructor
  · intro h
    rw [App.tick_of_angle M st poses a h, App.onAngle_band st a h1 h2]
    simp [App.counterEffect]
  · intro h
    rw [PushUpCounter.tick_of_angle_puc M st' poses a h, PushUpCounter.onAngle_band_puc st' a h1 h2]

/-- C4, at the two ends of the deadband: from the initial states, a sample at
exactly 160 degrees and then one at exactly 90 degrees change nothing. -/
theorem C4_deadband_witness :
    ((App.tick realMath App.init (armAt 160)).1.status = "Idle" ∧
      (App.tick realMath App.init (armAt 160)).2 = []) ∧
    PushUpCounter.tick realMath PushUpCounter.init (armAt 90) = PushUpCounter.init := by
  have h160 := C4_deadband realMath App.init PushUpCounter.init (armAt 160) 160
    (by norm_num) (by norm_num)
  have h90 := C4_deadband realMath App.init PushUpCounter.init (armAt 90) 90
    (by norm_num) (by norm_num)
  have a160 := h160.1 (App.sampleAngle_armAtScored 160 1 (by norm_num) (by norm_num))
  exact ⟨⟨a160.1, a160.2.2.2.1⟩,
    h90.2 (PushUpCounter.sampleAngle_armAtScored_puc 90 1 (by norm_num) (by norm_num))⟩

/-- C6: the progress value a detection step of App.js stores for a sample of
angle `a` is `clamp(((160 - a) / (160 - 90)) * 100, 0, 100)`; it lies in
[0, 100], is 0 for every `a ≥ 160`, is 100 for every `a ≤ 90`, and is 50 at
`a = 125`. -/
theorem C6_progress (M : JSMath K) (st : App.State K) (poses : List (Pose K)) (a : K)
    (h : App.sampleAngle M poses = some a) :
    (App.tick M st poses).1.progress = progressSpec a ∧
    0 ≤ (App.tick M st poses).1.progress ∧
    (App.tick M st poses).1.progress ≤ 100 ∧
    (160 ≤ a → (App.tick M st poses).1.progress = 0) ∧
    (a ≤ 90 → (App.tick M st poses).1.progress = 100) ∧
    (a = 125 → (App.tick M st poses).1.progress = 50) := by
  have e : (App.tick M st poses).1.progress = progressSpec a := by
    rw [App.tick_of_angle M st poses a h, App.onAngle_progress, min_max_eq_clamp]
    rfl
  rw [e]
  refine ⟨rfl, (progressSpec_bounds a).1, (progressSpec_bounds a).2,
    progressSpec_of_up a, progressSpec_of_down a, ?_⟩
  rintro rfl
  exact progressSpec_mid

/-- C6, at the midpoint: a sample at 125 degrees sets the progress to 50. -/
theorem C6_progress_witness :
    (App.tick realMath App.init (armAt 125)).1.progress = 50 :=
  (C6_progress realMath App.init (armAt 125) 125
    (App.sampleAngle_armAtScored 125 1 (by norm_num) (by norm_num))).2.2.2.2.2 rfl

/-- C7: a sample with no pose, or whose first pose lacks the shoulder, the
elbow or the wrist, leaves the whole state (status, last stage, counter and
progress) as it was and emits nothing. -/
theorem C7_skipped_sample (M : JSMath K) (st : App.State K) (st' : PushUpCounter.State)
    (poses : List (Pose K)) :
    (App.skipped poses → App.tick M st poses = (st, [])) ∧
    (PushUpCounter.skipped poses → PushUpCounter.tick M st' poses = st') :=
  ⟨fun h => App.tick_of_none M st poses (App.sampleAngle_of_skipped M poses h),
   fun h => PushUpCounter.tick_of_none_puc M st' poses
     (PushUpCounter.sampleAngle_of_skipped_puc M poses h)⟩

/-- C7, on a pose whose wrist keypoint is missing and on the empty result. -/
theorem C7_skipped_sample_witness :
    App.tick realMath (App.init : App.State ℝ) [noWristPose (0, 1) (0, 0) 1]
      = (App.init, []) ∧
    PushUpCounter.tick realMath PushUpCounter.init [noWristPose ((0 : ℝ), 1) (0, 0) 1]
      = PushUpCounter.init ∧
    App.tick realMath (App.init : App.State ℝ) [] = (App.init, []) :=
  ⟨(C7_skipped_sample realMath App.init PushUpCounter.init [noWristPose (0, 1) (0, 0) 1]).1
      (Or.inr ⟨_, _, rfl, Or.inr (Or.inr rfl)⟩),
   (C7_skipped_sample realMath App.init PushUpCounter.init [noWristPose (0, 1) (0, 0) 1]).2
      (Or.inr ⟨_, _, rfl, Or.inr (Or.inr (by simp [noWristPose, landmark]))⟩),
   (C7_skipped_sample realMath App.init PushUpCounter.init []).1 (Or.inl rfl)⟩

/-- C3: from a state whose last stage is "down", any non-empty run of samples
that are all above 160 degrees adds exactly 1 to the counter, however long
the run; and a detection step is idempotent: a second sample with the same
angle (or a second skipped sample) leaves the state as the first left it and
emits nothing. -/
theorem C3_no_double_count (M : JSMath K) (st : App.State K) (st' : PushUpCounter.State)
    (samples : List (List (Pose K))) (hne : samples ≠ []) :
    ((∀ s ∈ samples, ∃ a, App.sampleAngle M s = some a ∧ 160 < a) →
      st.lastStage = "down" → (App.run M st samples).counter = st.counter + 1) ∧
    ((∀ s ∈ samples, ∃ a, PushUpCounter.sampleAngle M s = some a ∧ 160 < a) →
      st'.lastStage = "down" →
      (PushUpCounter.run M st' samples).counter = st'.counter + 1) ∧
    (∀ s1 s2 : List (Pose K), App.sampleAngle M s1 = App.sampleAngle M s2 →
      App.tick M (App.tick M st s1).1 s2 = ((App.tick M st s1).1, [])) ∧
    (∀ s1 s2 : List (Pose K),
      PushUpCounter.sampleAngle M s1 = PushUpCounter.sampleAngle M s2 →
      PushUpCounter.tick M (PushUpCounter.tick M st' s1) s2 = PushUpCounter.tick M st' s1) :=
  ⟨fun hall hd => App.run_up_from_down M st samples hne hall hd,
   fun hall hd => PushUpCounter.run_up_from_down_puc M st' samples hne hall hd,
   fun s1 s2 h => App.tick_idem M st s1 s2 h,
   fun s1 s2 h => PushUpCounter.tick_idem_puc M st' s1 s2 h⟩

/-- C3, on three consecutive samples at 170 degrees from a "down" state with
5 repetitions counted: the counter ends at 6 in both variants. -/
theorem C3_no_double_count_witness :
    (App.run realMath { lastStage := "down", counter := 5, status := "Down", progress := 100 }
      [armAt 170, armAt 170, armAt 170]).counter = 6 ∧
    (PushUpCounter.run realMath { lastStage := "down", counter := 5, status := "Down" }
      [armAt 170, armAt 170, armAt 170]).counter = 6 := by
  have h := C3_no_double_count realMath
    { lastStage := "down", counter := 5, status := "Down", progress := 100 }
    { lastStage := "down", counter := 5, status := "Down" }
    [armAt 170, armAt 170, armAt 170] (by simp)
  constructor
  · refine h.1 (fun s hs => ⟨170, ?_, by norm_num⟩) rfl
    have : s = armAt 170 := by simpa using hs
    rw [this]
    exact App.sampleAngle_armAtScored 170 1 (by norm_num) (by norm_num)
  · refine h.2.1 (fun s hs => ⟨170, ?_, by norm_num⟩) rfl
    have : s = armAt 170 := by simpa using hs
    rw [this]
    exact PushUpCounter.sampleAngle_armAtScored_puc 170 1 (by norm_num) (by norm_num)

/-- C2: from the initial state, one sample at 170 degrees followed by `k`
pairs (sample at 70, sample at 170) ends with the counter at exactly `k` and
the status "Up"; the first sample alone counts nothing and speaks nothing. -/
theorem C2_full_cycles (M : JSMath K) (up down : List (Pose K)) (k : Nat) :
    (App.sampleAngle M up = some 170 → App.sampleAngle M down = some 70 →
      (App.run M App.init (up :: cycles down up k)).counter = k ∧
      (App.run M App.init (up :: cycles down up k)).status = "Up" ∧
      (App.tick M App.init up).1.counter = 0 ∧
      (App.tick M App.init up).2 = []) ∧
    (PushUpCounter.sampleAngle M up = some 170 → PushUpCounter.sampleAngle M down = some 70 →
      (PushUpCounter.run M PushUpCounter.init (up :: cycles down up k)).counter = k ∧
      (PushUpCounter.run M PushUpCounter.init (up :: cycles down up k)).status = "Up" ∧
      (PushUpCounter.tick M PushUpCounter.init up).counter = 0) := by
  constructor
  · intro hup hdown
    have s := App.tick_init_up M up hup
    have r := App.run_cycles M up down hup hdown k (App.tick M App.init up).1 s.1 s.2.1
    rw [App.run_cons]
    refine ⟨?_, r.2.2, s.2.2.1, s.2.2.2⟩
    rw [r.1, s.2.2.1]
    exact Nat.zero_add k
  · intro hup hdown
    have s := PushUpCounter.tick_init_up_puc M up hup
    have r := PushUpCounter.run_cycles_puc M up down hup hdown k
      (PushUpCounter.tick M PushUpCounter.init up) s.1 s.2.1
    rw [PushUpCounter.run_cons_puc]
    refine ⟨?_, r.2.2, s.2.2⟩
    rw [r.1, s.2.2]
    exact Nat.zero_add k

/-- C2, on the spec's two test sequences: 170, 70, 170 counts one repetition
and 170, 70, 170, 70, 170 counts two, in both variants. -/
theorem C2_full_cycles_witness :
    ((App.run realMath App.init [armAt 170, armAt 70, armAt 170]).counter = 1 ∧
      (App.run realMath App.init [armAt 170, armAt 70, armAt 170]).status = "Up") ∧
    ((PushUpCounter.run realMath PushUpCounter.init
        [armAt 170, armAt 70, armAt 170, armAt 70, armAt 170]).counter = 2 ∧
      (PushUpCounter.run realMath PushUpCounter.init
        [armAt 170, armAt 70, armAt 170, armAt 70, armAt 170]).status = "Up") := by
  have a := (C2_full_cycles realMath (armAt 170) (armAt 70) 1).1
    (App.sampleAngle_armAtScored 170 1 (by norm_num) (by norm_num))
    (App.sampleAngle_armAtScored 70 1 (by norm_num) (by norm_num))
  have p := (C2_full_cycles realMath (armAt 170) (armAt 70) 2).2
    (PushUpCounter.sampleAngle_armAtScored_puc 170 1 (by norm_num) (by norm_num))
    (PushUpCounter.sampleAngle_armAtScored_puc 70 1 (by norm_num) (by norm_num))
  exact ⟨⟨a.1, a.2.1⟩, ⟨p.1, p.2.1⟩⟩

/-- C10: in every state reached from the initial state by a finite sequence
of samples, the status is "Down" exactly when the last stage is "down", and a
status "Up" comes with the last stage "up"; and once the status is "Up" or
"Down" it stays one of the two under any further samples, so it never shows
its initial value ("Idle" in App.js, the empty string in app.js) again. -/
theorem C10_status_agrees_with_stage (M : JSMath K) (samples more : List (List (Pose K))) :
    (((App.run M App.init samples).status = "Down" ↔
        (App.run M App.init samples).lastStage = "down") ∧
      ((App.run M App.init samples).status = "Up" →
        (App.run M App.init samples).lastStage = "up") ∧
      (((App.run M App.init samples).status = "Up" ∨
          (App.run M App.init samples).status = "Down") →
        ((App.run M App.init (samples ++ more)).status = "Up" ∨
          (App.run M App.init (samples ++ more)).status = "Down") ∧
        (App.run M App.init (samples ++ more)).status ≠ "Idle")) ∧
    (((PushUpCounter.run M PushUpCounter.init samples).status = "Down" ↔
        (PushUpCounter.run M PushUpCounter.init samples).lastStage = "down") ∧
      ((PushUpCounter.run M PushUpCounter.init samples).status = "Up" →
        (PushUpCounter.run M PushUpCounter.init samples).lastStage = "up") ∧
      (((PushUpCounter.run M PushUpCounter.init samples).status = "Up" ∨
          (PushUpCounter.run M PushUpCounter.init samples).status = "Down") →
        ((PushUpCounter.run M PushUpCounter.init (samples ++ more)).status = "Up" ∨
          (PushUpCounter.run M PushUpCounter.init (samples ++ more)).status = "Down") ∧
        (PushUpCounter.run M PushUpCounter.init (samples ++ more)).status ≠ "")) := by
  have a := App.agree_down_iff _ (App.run_agree M samples App.init App.agree_init)
  have p := PushUpCounter.agree_down_iff_puc _
    (PushUpCounter.run_agree_puc M samples PushUpCounter.init PushUpCounter.agree_init_puc)
  refine ⟨⟨a.1, a.2, fun h => ?_⟩, ⟨p.1, p.2, fun h => ?_⟩⟩
  · have r := App.run_settled M more _ h
    rw [← App.run_append] at r
    refine ⟨r, ?_⟩
    rcases r with e | e <;> rw [e] <;> decide
  · have r := PushUpCounter.run_settled_puc M more _ h
    rw [← PushUpCounter.run_append_puc] at r
    refine ⟨r, ?_⟩
    rcases r with e | e <;> rw [e] <;> decide

/-- C10, on a concrete run: after a sample at 70 degrees the status is "Down"
with last stage "down", and a following skipped sample and deadband sample do
not bring "Idle" back. -/
theorem C10_status_agrees_with_stage_witness :
    (App.run realMath App.init [armAt 70]).lastStage = "down" ∧
    (App.run realMath App.init ([armAt 70] ++ [[], armAt 125])).status ≠ "Idle" := by
  have e : App.tick realMath App.init (armAt 70) = App.onAngle App.init 70 :=
    App.tick_of_angle realMath _ _ 70
      (App.sampleAngle_armAtScored 70 1 (by norm_num) (by norm_num))
  rw [App.onAngle_down _ 70 (by norm_num),
    if_pos (show (App.init : App.State ℝ).lastStage = "up" from rfl)] at e
  have hs : (App.run realMath App.init [armAt 70]).status = "Down" := by
    rw [App.run_cons, App.run_nil, e]
  have h := (C10_status_agrees_with_stage realMath [armAt 70] [[], armAt 125]).1
  exact ⟨h.1.1 hs, (h.2.2 (Or.inr hs)).2⟩

/-- C5: the function `getAngle` of app.js returns a value in [0, 180] for all
points, but the `getAngle` of App.js, which lacks the `360 - angle` fold,
does not: for the right-angled arm with shoulder (100, 200), elbow (200, 200)
and wrist (200, 100) it returns 270, where app.js returns 90.  All it
guarantees is a value in [0, 360].  On that sample the callback of App.js,
in the "down" phase, counts a repetition and shows "Up", while the callback
of app.js changes nothing. -/
theorem C5_getAngle_App_exceeds_180 :
    (∀ a b c : Keypoint ℝ,
      0 ≤ PushUpCounter.getAngle realMath a b c ∧ PushUpCounter.getAngle realMath a b c ≤ 180) ∧
    (∀ a b c : Keypoint ℝ,
      0 ≤ App.getAngle realMath a b c ∧ App.getAngle realMath a b c ≤ 360) ∧
    App.getAngle realMath (landmark "right_shoulder" 100 200 1)
      (landmark "right_elbow" 200 200 1) (landmark "right_wrist" 200 100 1) = 270 ∧
    PushUpCounter.getAngle realMath (landmark "right_shoulder" 100 200 1)
      (landmark "right_elbow" 200 200 1) (landmark "right_wrist" 200 100 1) = 90 ∧
    App.tick realMath App.downState bentArm =
      ({ lastStage := "up", counter := 1, status := "Up", progress := 0 }, ["Up"]) ∧
    PushUpCounter.tick realMath PushUpCounter.downState bentArm = PushUpCounter.downState := by
  refine ⟨PushUpCounter.getAngle_range_puc realMath realMath_PI_pos realMath_atan2_range,
    App.getAngle_range realMath realMath_PI_pos realMath_atan2_range,
    App.getAngle_bentArm, PushUpCounter.getAngle_bentArm_puc, ?_, ?_⟩
  · rw [App.tick_of_angle realMath _ bentArm 270 App.sampleAngle_bentArm,
      App.onAngle_up _ 270 (by norm_num),
      if_pos (show (App.downState : App.State ℝ).lastStage = "down" from rfl)]
    have e : min (100 : ℝ) (max 0 (((160 - 270) / (160 - 90)) * 100)) = 0 := by
      rw [max_eq_left (by norm_num)]
      exact min_eq_right (by norm_num)
    rw [e]
    rfl
  · rw [PushUpCounter.tick_of_angle_puc realMath _ bentArm 90 PushUpCounter.sampleAngle_bentArm_puc,
      PushUpCounter.onAngle_band_puc _ 90 (by norm_num) (by norm_num)]

/-- C8, refuted as stated: a sample at 170 degrees whose keypoints all carry
the score 0.3, below the floor 0.5, is not skipped.  From the "down" state it
counts a repetition and sets the status to "Up" in both variants. -/
theorem C8_low_confidence_counterexample :
    App.landmarks (armAtScored 170 (3 / 10)) =
      some (landmark "right_shoulder" (Real.cos (170 * Real.pi / 180))
              (Real.sin (170 * Real.pi / 180)) (3 / 10),
            landmark "right_elbow" 0 0 (3 / 10), landmark "right_wrist" 1 0 (3 / 10)) ∧
    lowConfidence (landmark "right_shoulder" (Real.cos (170 * Real.pi / 180))
        (Real.sin (170 * Real.pi / 180)) (3 / 10 : ℝ))
      (landmark "right_elbow" 0 0 (3 / 10)) (landmark "right_wrist" 1 0 (3 / 10)) ∧
    (App.tick realMath App.downState (armAtScored 170 (3 / 10))).1.counter = 1 ∧
    (App.tick realMath App.downState (armAtScored 170 (3 / 10))).1.status = "Up" ∧
    (App.tick realMath App.downState (armAtScored 170 (3 / 10))).1.progress = 0 ∧
    (App.downState : App.State ℝ).counter = 0 ∧
    (PushUpCounter.tick realMath PushUpCounter.downState (armAtScored 170 (3 / 10))).counter
      = 1 := by
  have hA := App.tick_of_angle realMath App.downState _ 170
    (App.sampleAngle_armAtScored 170 (3 / 10) (by norm_num) (by norm_num))
  rw [App.onAngle_up _ 170 (by norm_num),
    if_pos (show (App.downState : App.State ℝ).lastStage = "down" from rfl)] at hA
  have hP := PushUpCounter.tick_of_angle_puc realMath PushUpCounter.downState _ 170
    (PushUpCounter.sampleAngle_armAtScored_puc 170 (3 / 10) (by norm_num) (by norm_num))
  rw [PushUpCounter.onAngle_up_puc _ 170 (by norm_num),
    if_pos (show PushUpCounter.downState.lastStage = "down" from rfl)] at hP
  refine ⟨rfl, Or.inl ?_, ?_, ?_, ?_, rfl, ?_⟩
  · show (3 / 10 : ℝ) < 1 / 2
    norm_num
  · rw [hA]; rfl
  · rw [hA]
  · rw [hA]
    show min (100 : ℝ) (max 0 (((160 - 170) / (160 - 90)) * 100)) = 0
    rw [max_eq_left (by norm_num)]
    exact min_eq_right (by norm_num)
  · rw [hP]; rfl

/-- C8, amended: the detection step never reads the confidence scores.
Replacing every score of a sample by any function of it gives the same step
result, in both variants; so a sample whose three landmarks are present is
processed by its angle whatever its scores are. -/
theorem C8_scores_are_ignored (M : JSMath K) (f : K → K) (st : App.State K)
    (st' : PushUpCounter.State) (poses : List (Pose K)) :
    App.tick M st (mapScores f poses) = App.tick M st poses ∧
    PushUpCounter.tick M st' (mapScores f poses) = PushUpCounter.tick M st' poses := by
  constructor
  · rw [App.tick_eq, App.tick_eq, App.sampleAngle_mapScores]
  · rw [PushUpCounter.tick_eq_puc, PushUpCounter.tick_eq_puc, PushUpCounter.sampleAngle_mapScores_puc]

/-- C9, refuted as stated: a sample whose elbow lies exactly on the shoulder
(both at pixel (200, 200), wrist at (100, 200)) is not skipped.  Its angle is
computed as 180, and from the "down" state the step counts a repetition and
sets the status to "Up" in both variants. -/
theorem C9_degenerate_counterexample :
    App.landmarks (elbowOnShoulder : List (Pose ℝ)) =
      some (landmark "right_shoulder" 200 200 1, landmark "right_elbow" 200 200 1,
            landmark "right_wrist" 100 200 1) ∧
    degenerate (landmark "right_shoulder" 200 200 (1 : ℝ)) (landmark "right_elbow" 200 200 1)
      (landmark "right_wrist" 100 200 1) ∧
    App.tick realMath App.downState elbowOnShoulder =
      ({ lastStage := "up", counter := 1, status := "Up", progress := 0 }, ["Up"]) ∧
    PushUpCounter.tick realMath PushUpCounter.downState elbowOnShoulder =
      { lastStage := "up", counter := 1, status := "Up" } := by
  refine ⟨rfl, Or.inl ⟨rfl, rfl⟩, ?_, ?_⟩
  · rw [App.tick_of_angle realMath _ elbowOnShoulder 180 App.sampleAngle_elbowOnShoulder,
      App.onAngle_up _ 180 (by norm_num),
      if_pos (show (App.downState : App.State ℝ).lastStage = "down" from rfl)]
    have e : min (100 : ℝ) (max 0 (((160 - 180) / (160 - 90)) * 100)) = 0 := by
      rw [max_eq_left (by norm_num)]
      exact min_eq_right (by norm_num)
    rw [e]
    rfl
  · rw [PushUpCounter.tick_of_angle_puc realMath _ elbowOnShoulder 180
        PushUpCounter.sampleAngle_elbowOnShoulder_puc,
      PushUpCounter.onAngle_up_puc _ 180 (by norm_num),
      if_pos (show PushUpCounter.downState.lastStage = "down" from rfl)]
    rfl

/-- C9, amended: a sample whose three landmarks are present and whose
geometry is degenerate is not skipped; `atan2` of the zero vector is 0, so
the angle is defined and the step acts on it.  In App.js, with the elbow on
the shoulder the angle is the unsigned direction of the wrist from the elbow
in degrees, and with the elbow on the wrist that of the shoulder.  When all
three points coincide the angle is 0 in both variants: the step sets the
status to "Down" (and the progress to 100), moves the last stage from "up" to
"down", and leaves the counter unchanged. -/
theorem C9_degenerate_is_processed (st : App.State ℝ) (st' : PushUpCounter.State)
    (poses : List (Pose ℝ)) (sh el wr : Keypoint ℝ) :
    (App.landmarks poses = some (sh, el, wr) →
      (coincide el sh → App.sampleAngle realMath poses =
        some (|realMath.atan2 (wr.y - el.y) (wr.x - el.x)| * (180 / Real.pi))) ∧
      (coincide el wr → App.sampleAngle realMath poses =
        some (|realMath.atan2 (sh.y - el.y) (sh.x - el.x)| * (180 / Real.pi))) ∧
      (coincide el sh → coincide el wr →
        App.tick realMath st poses =
          if st.lastStage = "up" then
            ({ lastStage := "down", counter := st.counter, status := "Down",
               progress := 100 }, ["Down"])
          else
            ({ lastStage := st.lastStage, counter := st.counter, status := "Down",
               progress := 100 }, []))) ∧
    (PushUpCounter.landmarks poses = some (sh, el, wr) →
      coincide el sh → coincide el wr →
        PushUpCounter.tick realMath st' poses =
          if st'.lastStage = "up" then
            { lastStage := "down", counter := st'.counter, status := "Down" }
          else
            { lastStage := st'.lastStage, counter := st'.counter, status := "Down" }) := by
  constructor
  · intro hl
    have ha := App.sampleAngle_of_landmarks realMath poses sh el wr hl
    refine ⟨fun h => ?_, fun h => ?_, fun h1 h2 => ?_⟩
    · rw [ha, App.getAngle_elbow_on_shoulder sh el wr h]
    · rw [ha, App.getAngle_elbow_on_wrist sh el wr h]
    · rw [App.getAngle_all_coincide sh el wr h1 h2] at ha
      rw [App.tick_of_angle realMath st poses 0 ha, App.onAngle_down st 0 (by norm_num),
        App.progress_at_zero]
  · intro hl h1 h2
    have ha := PushUpCounter.sampleAngle_of_landmarks_puc realMath poses sh el wr hl
    rw [PushUpCounter.getAngle_all_coincide_puc sh el wr h1 h2] at ha
    rw [PushUpCounter.tick_of_angle_puc realMath st' poses 0 ha,
      PushUpCounter.onAngle_down_puc st' 0 (by norm_num)]

/-- C9, on a sample whose shoulder, elbow and wrist all sit at pixel
(200, 200): from the initial state the step of App.js shows "Down" with
progress 100 and speaks "Down"; the counter stays 0. -/
theorem C9_degenerate_is_processed_witness :
    App.tick realMath App.init [armPose ((200 : ℝ), 200) (200, 200) (200, 200) 1] =
      ({ lastStage := "down", counter := 0, status := "Down", progress := 100 }, ["Down"]) := by
  have h := (C9_degenerate_is_processed App.init PushUpCounter.init
    [armPose ((200 : ℝ), 200) (200, 200) (200, 200) 1]
    (landmark "right_shoulder" 200 200 1) (landmark "right_elbow" 200 200 1)
    (landmark "right_wrist" 200 200 1)).1 rfl
  have t := h.2.2 ⟨rfl, rfl⟩ ⟨rfl, rfl⟩
  rw [if_pos (show (App.init : App.State ℝ).lastStage = "up" from rfl)] at t
  exact t

end Claims
